import Mathlib

/-!
Shallow embedding of the `azure-cognitive-speech-services` speech-synthesis
protocol client (message framing codec, audio-format negotiator, event
stream decoder), with theorems checking the natural-language specification
against the code.

Rust strings are modelled as `List Char` (`RStr`), byte vectors as
`List Nat` with entries `< 256`, machine integers as `Nat`.  Panics
(slice out of bounds, `unimplemented!`, failed assertions) are modelled by
`Option`, with `none` denoting a panic.  `f32` tick arithmetic in the event
decoder is modelled by exact rationals (`ℚ`).
-/

abbrev RStr := List Char

/-! ## Audio format negotiator (src/synthesiser/mod.rs)

The `speech_synthesis` collaborator crate types: only the variants the
source matches on are modelled explicitly; `other` stands for the remaining
variants of the external enum, all of which fall into the source's
wildcard arms. -/

inductive AudioEncoding where
  | pcmI16
  | aLaw
  | muLaw
deriving DecidableEq, Repr

inductive AudioCodec where
  | opus
  | other
deriving DecidableEq, Repr

inductive AudioContainer where
  | raw (encoding : AudioEncoding)
  | ogg (codec : AudioCodec)
  | other
deriving DecidableEq, Repr

inductive AudioChannels where
  | mono
  | stereo
deriving DecidableEq, Repr

structure AudioFormat where
  sample_rate : Nat
  channels : AudioChannels
  bitrate : Option Nat
  container : AudioContainer
deriving DecidableEq, Repr

structure AudioFormatPreference where
  containers : Option (List AudioContainer)
  sample_rates : Option (List Nat)
  bitrates : Option (List Nat)
  channels : Option (List AudioChannels)
deriving DecidableEq, Repr

/-- The supported-rate table for `Raw` containers, from the
`match (sr, encoding)` arms inside `match_container`. -/
def raw_rate_supported (encoding : AudioEncoding) (sr : Nat) : Bool :=
  match sr, encoding with
  | 8000, .aLaw => true
  | 8000, .muLaw => true
  | 8000, .pcmI16 => true
  | 16000, .pcmI16 => true
  | 22050, .pcmI16 => true
  | 24000, .pcmI16 => true
  | 44100, .pcmI16 => true
  | 48000, .pcmI16 => true
  | _, _ => false

/-- The supported-rate table for `Ogg`+`Opus`, from the `match sr` arms. -/
def ogg_rate_supported (sr : Nat) : Bool :=
  match sr with
  | 16000 => true
  | 24000 => true
  | 48000 => true
  | _ => false

/-- `channels.is_some() && !channels.unwrap().iter().any(|c| c == &Mono)`
gates both supported container arms: proceed unless a channel list is given
that excludes mono. -/
def channels_admit_mono (channels : Option (List AudioChannels)) : Bool :=
  match channels with
  | none => true
  | some chs => chs.any fun c => c = .mono

/-- `match_container` from `negotiate_audio_format`.  The sample-rate loop
returns the first supported rate of `sample_rates` (`List.find?`); with no
sample-rate list the default is `Some(48_000)`. -/
def match_container (container : AudioContainer) (sample_rates : Option (List Nat))
    (_bitrates : Option (List Nat)) (channels : Option (List AudioChannels)) :
    Option AudioFormat :=
  match container with
  | .raw encoding =>
    if channels_admit_mono channels then
      (((sample_rates.map fun sr_prefs => sr_prefs.find? (raw_rate_supported encoding)).getD
        (some 48000)).map fun sr => AudioFormat.mk sr .mono none container)
    else none
  | .ogg .opus =>
    if channels_admit_mono channels then
      (((sample_rates.map fun sr_prefs => sr_prefs.find? ogg_rate_supported).getD
        (some 48000)).map fun sr => AudioFormat.mk sr .mono none container)
    else none
  | _ => none

/-- `negotiate_audio_format`.  The preference's sample-rate and bitrate
lists are first sorted in descending numeric order
(`f.sort_by(|a, b| b.cmp(a))`); Rust's stable sort on a list of naturals
by that comparator produces exactly `List.insertionSort (· ≥ ·)`.
Containers are then walked in preference order and the first match wins;
with no container list at all the 48 kHz mono raw-PCM default is
returned immediately. -/
def negotiate_audio_format (pref : AudioFormatPreference) : Option AudioFormat :=
  let sample_rates := pref.sample_rates.map (List.insertionSort (· ≥ ·))
  let bitrates := pref.bitrates.map (List.insertionSort (· ≥ ·))
  match pref.containers with
  | some containers =>
    containers.findSome? fun c => match_container c sample_rates bitrates pref.channels
  | none => some (AudioFormat.mk 48000 .mono none (.raw .pcmI16))

/-- Supported rate table as a single predicate over containers, for stating
the negotiation theorems. -/
def container_rate_supported (container : AudioContainer) (sr : Nat) : Bool :=
  match container with
  | .raw encoding => raw_rate_supported encoding sr
  | .ogg .opus => ogg_rate_supported sr
  | _ => false

/-- A container kind the protocol supports: `Raw` with any of the modelled
encodings, or `Ogg`+`Opus`. -/
def container_supported (container : AudioContainer) : Prop :=
  (∃ e, container = .raw e) ∨ container = .ogg .opus

theorem container_rate_supported_raw (e : AudioEncoding) :
    container_rate_supported (.raw e) = raw_rate_supported e := rfl

theorem container_rate_supported_ogg :
    container_rate_supported (.ogg .opus) = ogg_rate_supported := rfl

/-- In a list sorted in descending order, any match of `p` found later in
the list is bounded by the first match `find?` returns. -/
theorem le_of_find?_sorted_ge {p : Nat → Bool} :
    ∀ {l : List Nat}, List.Sorted (· ≥ ·) l →
      ∀ {m}, l.find? p = some m → ∀ x ∈ l, p x = true → x ≤ m := by
  intro l
  induction l with
  | nil => intro _ m h; simp at h
  | cons a t ih =>
    intro hs m hfind x hx hp
    rcases hpa : p a with _ | _
    · rw [List.find?_cons_of_neg _ (by simp [hpa])] at hfind
      rcases List.mem_cons.mp hx with rfl | hxt
      · rw [hp] at hpa; cases hpa
      · exact ih (List.sorted_cons.mp hs).2 hfind x hxt hp
    · rw [List.find?_cons_of_pos _ hpa] at hfind
      cases hfind
      rcases List.mem_cons.mp hx with rfl | hxt
      · exact Nat.le_refl _
      · exact (List.sorted_cons.mp hs).1 x hxt

/-- C1, amended: when the first preferred container is supported, the
channel preference admits mono and the sample-rate list contains a
supported rate, `negotiate_audio_format` picks the numerically highest
supported sample rate in the caller's list (the list is sorted in
descending order before matching), not the first in the caller's
priority order. -/
theorem c1_picks_numerically_highest_supported_rate
    (pref : AudioFormatPreference) (c : AudioContainer) (cs : List AudioContainer)
    (l : List Nat) (r₀ : Nat)
    (hc : pref.containers = some (c :: cs))
    (hsup : container_supported c)
    (hch : channels_admit_mono pref.channels = true)
    (hsr : pref.sample_rates = some l)
    (hr₀ : r₀ ∈ l) (hr₀s : container_rate_supported c r₀ = true) :
    ∃ m, negotiate_audio_format pref = some (AudioFormat.mk m .mono none c) ∧
      m ∈ l ∧ container_rate_supported c m = true ∧
      ∀ r ∈ l, container_rate_supported c r = true → r ≤ m := by
  have hperm : (List.insertionSort (· ≥ ·) l).Perm l := List.perm_insertionSort _ l
  have hsorted : List.Sorted (· ≥ ·) (List.insertionSort (· ≥ ·) l) :=
    List.sorted_insertionSort _ l
  have hmem' : r₀ ∈ List.insertionSort (· ≥ ·) l := hperm.mem_iff.mpr hr₀
  have hsomeP : ((List.insertionSort (· ≥ ·) l).find? (container_rate_supported c)).isSome :=
    List.find?_isSome.mpr ⟨r₀, hmem', hr₀s⟩
  obtain ⟨m, hm⟩ := Option.isSome_iff_exists.mp hsomeP
  refine ⟨m, ?_, hperm.mem_iff.mp (List.mem_of_find?_eq_some hm), List.find?_some hm,
    fun r hr hrs => le_of_find?_sorted_ge hsorted hm r (hperm.mem_iff.mpr hr) hrs⟩
  rcases hsup with ⟨e, rfl⟩ | rfl
  · rw [container_rate_supported_raw] at hm
    simp [negotiate_audio_format, hc, hsr, match_container, hch, hm]
  · rw [container_rate_supported_ogg] at hm
    simp [negotiate_audio_format, hc, hsr, match_container, hch, hm]

/-- C1, witness: with containers `[Raw PcmI16]` and caller-ordered rates
`[16000, 48000]`, negotiation returns 48 kHz (the numeric maximum). -/
theorem c1_picks_numerically_highest_supported_rate_witness :
    negotiate_audio_format ⟨some [.raw .pcmI16], some [16000, 48000], none, none⟩ =
      some (AudioFormat.mk 48000 .mono none (.raw .pcmI16)) := by
  obtain ⟨m, hm, hmem, _, hmax⟩ :=
    c1_picks_numerically_highest_supported_rate
      ⟨some [.raw .pcmI16], some [16000, 48000], none, none⟩
      (.raw .pcmI16) [] [16000, 48000] 48000 rfl (Or.inl ⟨_, rfl⟩) rfl rfl
      (by decide) (by decide)
  have h48 : (48000 : Nat) ≤ m := hmax 48000 (by decide) (by decide)
  have hm' : m = 48000 := by
    have : m = 16000 ∨ m = 48000 := by simpa using hmem
    omega
  rw [hm'] at hm
  exact hm

/-- C1, counterexample to the claim as stated: with the caller's priority
list `[8000, 48000]` for raw PCM, the first supported rate in caller order
is 8000, but negotiation returns 48000. -/
theorem c1_counterexample :
    negotiate_audio_format ⟨some [.raw .pcmI16], some [8000, 48000], none, none⟩ =
      some (AudioFormat.mk 48000 .mono none (.raw .pcmI16)) ∧
    negotiate_audio_format ⟨some [.raw .pcmI16], some [8000, 48000], none, none⟩ ≠
      some (AudioFormat.mk 8000 .mono none (.raw .pcmI16)) := by
  constructor <;> decide

/-- C2, amended: with an absent container preference,
`negotiate_audio_format` returns the 48 kHz mono raw-PCM default whatever
the other preference fields say; with an explicitly empty container list
it returns the no-match outcome `none` instead of the default. -/
theorem c2_absent_containers_default_empty_containers_no_match :
    (∀ (sr br : Option (List Nat)) (ch : Option (List AudioChannels)),
      negotiate_audio_format ⟨none, sr, br, ch⟩ =
        some (AudioFormat.mk 48000 .mono none (.raw .pcmI16))) ∧
    (∀ (sr br : Option (List Nat)) (ch : Option (List AudioChannels)),
      negotiate_audio_format ⟨some [], sr, br, ch⟩ = none) := by
  constructor <;> intro sr br ch <;> rfl

/-- C2, counterexample to the claim as stated: an empty (but present)
container list yields the no-match outcome, not the default format. -/
theorem c2_counterexample :
    negotiate_audio_format ⟨some [], none, none, none⟩ = none := by decide

/-! ## Rust string primitives over `RStr`

`char::is_whitespace` is the Unicode White_Space property;
`str::to_lowercase` is modelled on its ASCII fragment, mapping `A`–`Z` to
`a`–`z` and fixing every other character.  On ASCII text this coincides
exactly with `str::to_lowercase`; on non-ASCII text it does not (the real
function lower-cases e.g. `Σ` to `σ`, which this model fixes), so every
round-trip theorem below restricts its header section to ASCII, the domain
on which the model is exact.  The protocol constants the parser compares
against (header names, paths, metadata types) are all ASCII. -/

def char_is_whitespace (c : Char) : Bool :=
  let n := c.toNat
  (0x09 ≤ n && n ≤ 0x0D) || n == 0x20 || n == 0x85 || n == 0xA0 || n == 0x1680 ||
  (0x2000 ≤ n && n ≤ 0x200A) || n == 0x2028 || n == 0x2029 || n == 0x202F ||
  n == 0x205F || n == 0x3000

def lower_char (c : Char) : Char :=
  if 'A' ≤ c ∧ c ≤ 'Z' then Char.ofNat (c.toNat + 32) else c

def to_lowercase (s : RStr) : RStr := s.map lower_char

def trim_start (s : RStr) : RStr := s.dropWhile char_is_whitespace

def trim_end (s : RStr) : RStr := (s.reverse.dropWhile char_is_whitespace).reverse

def trim (s : RStr) : RStr := trim_end (trim_start s)

/-- Rust `str::split("\r\n")`: every occurrence splits, empty pieces kept. -/
def splitCRLF : RStr → List RStr
  | '\r' :: '\n' :: rest => [] :: splitCRLF rest
  | c :: rest =>
    match splitCRLF rest with
    | [] => [[c]]
    | s :: ss => (c :: s) :: ss
  | [] => [[]]

/-- Rust `str::split_once("\r\n\r\n")`: split at the first occurrence. -/
def splitDoubleCRLF : RStr → Option (RStr × RStr)
  | '\r' :: '\n' :: '\r' :: '\n' :: rest => some ([], rest)
  | c :: rest => (splitDoubleCRLF rest).map fun p => (c :: p.1, p.2)
  | [] => none

/-- Rust `str::split_once(sep)` for a single-character pattern. -/
def split_once_char (sep : Char) : RStr → Option (RStr × RStr)
  | [] => none
  | c :: rest =>
    if c = sep then some ([], rest)
    else (split_once_char sep rest).map fun p => (c :: p.1, p.2)

/-- Whether `"\r\n"` occurs as a contiguous subsequence. -/
def hasCRLF : RStr → Bool
  | '\r' :: '\n' :: _ => true
  | _ :: rest => hasCRLF rest
  | [] => false

/-- Rust `[String]::join("\r\n")`. -/
def joinCRLF : List RStr → RStr
  | [] => []
  | [s] => s
  | s :: ss => s ++ '\r' :: '\n' :: joinCRLF ss

/-! ## UTF-8 (Rust `str::as_bytes` / `str::from_utf8`) -/

def utf8EncodeChar (n : Nat) : List Nat :=
  if n < 0x80 then [n]
  else if n < 0x800 then [0xC0 + n / 64, 0x80 + n % 64]
  else if n < 0x10000 then [0xE0 + n / 4096, 0x80 + n / 64 % 64, 0x80 + n % 64]
  else [0xF0 + n / 262144, 0x80 + n / 4096 % 64, 0x80 + n / 64 % 64, 0x80 + n % 64]

def utf8Encode (s : RStr) : List Nat := (s.map fun c => utf8EncodeChar c.toNat).flatten

/-- One step of Rust `str::from_utf8` validation: given a lead byte and
the bytes after it, return one scalar value and the not-yet-consumed tail.
Rejects overlong forms, surrogates and out-of-range lead/continuation
bytes. -/
def utf8DecodeStep (b0 : Nat) (rest : List Nat) : Option (Nat × List Nat) :=
  if b0 < 0x80 then some (b0, rest)
  else if b0 < 0xC2 then none
  else if b0 < 0xE0 then
    match rest with
    | b1 :: tail =>
      if 0x80 ≤ b1 ∧ b1 < 0xC0 then some ((b0 - 0xC0) * 64 + (b1 - 0x80), tail)
      else none
    | [] => none
  else if b0 < 0xF0 then
    match rest with
    | b1 :: b2 :: tail =>
      if (if b0 = 0xE0 then 0xA0 else 0x80) ≤ b1 ∧
          b1 < (if b0 = 0xED then 0xA0 else 0xC0) ∧ 0x80 ≤ b2 ∧ b2 < 0xC0 then
        some ((b0 - 0xE0) * 4096 + (b1 - 0x80) * 64 + (b2 - 0x80), tail)
      else none
    | _ => none
  else if b0 < 0xF5 then
    match rest with
    | b1 :: b2 :: b3 :: tail =>
      if (if b0 = 0xF0 then 0x90 else 0x80) ≤ b1 ∧
          b1 < (if b0 = 0xF4 then 0x90 else 0xC0) ∧ 0x80 ≤ b2 ∧ b2 < 0xC0 ∧
          0x80 ≤ b3 ∧ b3 < 0xC0 then
        some ((b0 - 0xF0) * 262144 + (b1 - 0x80) * 4096 +
          (b2 - 0x80) * 64 + (b3 - 0x80), tail)
      else none
    | _ => none
  else none

/-- The decode loop, structurally recursive on a fuel bound.  Every step
consumes at least the lead byte, so fuel equal to the input length (as
supplied by `utf8Decode`) is never exhausted and the `none` fuel case is
unreachable. -/
def utf8DecodeFuel (fuel : Nat) (l : List Nat) : Option RStr :=
  match l, fuel with
  | [], _ => some []
  | _ :: _, 0 => none
  | b0 :: rest, fuel + 1 =>
    match utf8DecodeStep b0 rest with
    | none => none
    | some (n, tail) => (utf8DecodeFuel fuel tail).map (Char.ofNat n :: ·)

/-- Rust `str::from_utf8`. -/
def utf8Decode (l : List Nat) : Option RStr := utf8DecodeFuel l.length l

/-- `u16::to_be_bytes(n as u16)`: the `as u16` cast reduces mod 2^16. -/
def u16_to_be_bytes (n : Nat) : List Nat := [n % 65536 / 256, n % 256]

/-! ## Message framing codec (src/message.rs) -/

inductive AzureCognitiveSpeechServicesMessageBody where
  | binary (data : List Nat)
  | text (s : RStr)
deriving DecidableEq, Repr

/-- `simd_json::Error`, opaque to this client (JSON parsing is an external
collaborator); only its identity matters. -/
structure SimdJsonError where
  code : Nat
deriving DecidableEq, Repr

inductive AzureCognitiveSpeechServicesMessageError where
  | parseBinary
  | parseJson (e : SimdJsonError)
  | builder (s : RStr)
  | badHeader (s : RStr)
  | missingHeader (s : RStr)
  | malformedHeaderSection
  | headerUtf8
deriving DecidableEq, Repr

structure AzureCognitiveSpeechServicesMessage where
  request_id : RStr
  path : RStr
  content_type : Option RStr
  stream_id : Option RStr
  body : AzureCognitiveSpeechServicesMessageBody
deriving DecidableEq, Repr

structure AzureCognitiveSpeechServicesMessageBuilder where
  request_id : Option RStr := none
  path : Option RStr := none
  content_type : Option RStr := none
  stream_id : Option RStr := none
  body : Option AzureCognitiveSpeechServicesMessageBody := none
deriving DecidableEq, Repr

def builder_new (path request_id : RStr) : AzureCognitiveSpeechServicesMessageBuilder :=
  { path := some path, request_id := some request_id }

def builder_with_content_type (b : AzureCognitiveSpeechServicesMessageBuilder)
    (content_type : RStr) : AzureCognitiveSpeechServicesMessageBuilder :=
  { b with content_type := some content_type }

def builder_with_stream_id (b : AzureCognitiveSpeechServicesMessageBuilder)
    (stream_id : RStr) : AzureCognitiveSpeechServicesMessageBuilder :=
  { b with stream_id := some stream_id }

def builder_with_body (b : AzureCognitiveSpeechServicesMessageBuilder)
    (body : AzureCognitiveSpeechServicesMessageBody) :
    AzureCognitiveSpeechServicesMessageBuilder :=
  { b with body := some body }

def builder_build (b : AzureCognitiveSpeechServicesMessageBuilder) :
    Except AzureCognitiveSpeechServicesMessageError AzureCognitiveSpeechServicesMessage :=
  match b.request_id with
  | none => .error (.builder "missing request ID".data)
  | some rid =>
    match b.path with
    | none => .error (.builder "missing request path".data)
    | some p =>
      match b.body with
      | none => .error (.builder "missing message body".data)
      | some body => .ok ⟨rid, p, b.content_type, b.stream_id, body⟩

/-- `HashMap::remove` after `collect`: the last insert of a key wins. -/
def lookup_last (k : RStr) : List (RStr × RStr) → Option RStr
  | [] => none
  | (n, v) :: rest =>
    match lookup_last k rest with
    | some r => some r
    | none => if n = k then some v else none

/-- One header line: split at the first `:`, trim and lower-case both
sides; a line without `:` is a `BadHeader` error. -/
def parse_header_line (c : RStr) :
    Except AzureCognitiveSpeechServicesMessageError (RStr × RStr) :=
  match split_once_char ':' c with
  | none => .error (.badHeader c)
  | some (header_name, header_value) =>
    .ok (to_lowercase (trim header_name), to_lowercase (trim header_value))

/-- The second half of `parse_headers`: pull the required
`path`/`x-requestid` and optional `content-type`/`x-streamid` entries out
of the collected header map. -/
def headers_to_builder (pairs : List (RStr × RStr)) :
    Except AzureCognitiveSpeechServicesMessageError
      AzureCognitiveSpeechServicesMessageBuilder :=
  match lookup_last "path".data pairs with
  | none => Except.error (.missingHeader "Path".data)
  | some p =>
    match lookup_last "x-requestid".data pairs with
    | none => Except.error (.missingHeader "X-RequestId".data)
    | some rid =>
      let b := builder_new p rid
      let b := match lookup_last "content-type".data pairs with
        | some ct => builder_with_content_type b ct
        | none => b
      let b := match lookup_last "x-streamid".data pairs with
        | some sid => builder_with_stream_id b sid
        | none => b
      pure b

/-- `parse_headers`: split on CRLF, drop blank lines, parse each line,
collect, then extract the known headers. -/
def parse_headers (headers : RStr) :
    Except AzureCognitiveSpeechServicesMessageError
      AzureCognitiveSpeechServicesMessageBuilder := do
  let lines := (splitCRLF headers).filter fun c => decide (trim c ≠ [])
  let pairs ← lines.mapM parse_header_line
  headers_to_builder pairs

/-- `FromStr for AzureCognitiveSpeechServicesMessage` (text frames). -/
def message_from_str (s : RStr) :
    Except AzureCognitiveSpeechServicesMessageError AzureCognitiveSpeechServicesMessage :=
  match splitDoubleCRLF s with
  | none => .error .malformedHeaderSection
  | some (headers, body) => do
    let b ← parse_headers headers
    builder_build (builder_with_body b (.text body))

/-- `TryFrom<Vec<u8>>` (binary frames).  `none` models the two slice
panics: fewer than two input bytes (`split_at`), or a header-length prefix
larger than the remaining byte count (`&rest[..header_len]`). -/
def message_try_from_bytes (value : List Nat) :
    Option (Except AzureCognitiveSpeechServicesMessageError
      AzureCognitiveSpeechServicesMessage) :=
  match value with
  | b0 :: b1 :: rest =>
    let header_len := b0 * 256 + b1
    if header_len ≤ rest.length then
      some (do
        let headers ← match utf8Decode (rest.take header_len) with
          | none => Except.error .headerUtf8
          | some hs => Except.ok hs
        let b ← parse_headers headers
        builder_build (builder_with_body b (.binary (rest.drop header_len))))
    else none
  | _ => none

/-- The serialized header section.  The source iterates a `HashMap`, whose
order is unspecified; the parser is order-insensitive, and this model fixes
the insertion order used by `serialize_inner`. -/
def header_lines (m : AzureCognitiveSpeechServicesMessage) : List (RStr × RStr) :=
  ("X-RequestId".data, m.request_id) ::
    ((match m.content_type with
      | some ct => [("Content-Type".data, ct)]
      | none => []) ++
     (match m.stream_id with
      | some sid => [("X-StreamId".data, sid)]
      | none => []) ++
     [("Path".data, m.path)])

def serialize_headers (m : AzureCognitiveSpeechServicesMessage) : RStr :=
  joinCRLF ((header_lines m).map fun p => p.1 ++ ':' :: ' ' :: p.2)

/-- `serialize_text`: header section, `\r\n\r\n`, UTF-8 body.  `none`
models the `panic!("expected text")` on a binary body. -/
def serialize_text (m : AzureCognitiveSpeechServicesMessage) : Option RStr :=
  match m.body with
  | .text body => some (serialize_headers m ++ '\r' :: '\n' :: '\r' :: '\n' :: body)
  | .binary _ => none

/-- `serialize_binary`: big-endian `u16` header byte length (cast truncates
mod 2^16), header bytes, body bytes.  `none` models the
`panic!("expected binary")` on a text body. -/
def serialize_binary (m : AzureCognitiveSpeechServicesMessage) : Option (List Nat) :=
  match m.body with
  | .binary body =>
    some (u16_to_be_bytes (utf8Encode (serialize_headers m)).length ++
      utf8Encode (serialize_headers m) ++ body)
  | .text _ => none

/-- C10: binary-frame parsing is not total.  Inputs shorter than the
two-byte length prefix, and inputs whose big-endian `u16` header-length
prefix exceeds the bytes remaining after the prefix, hit a slice panic
(modelled by `none`) instead of returning a framing error. -/
theorem c10_binary_parse_panics_on_short_input :
    (∀ bs : List Nat, bs.length < 2 → message_try_from_bytes bs = none) ∧
    (∀ b0 b1 : Nat, ∀ rest : List Nat, rest.length < b0 * 256 + b1 →
      message_try_from_bytes (b0 :: b1 :: rest) = none) := by
  constructor
  · intro bs h
    match bs with
    | [] => rfl
    | [b] => rfl
    | b0 :: b1 :: rest => simp at h; omega
  · intro b0 b1 rest h
    simp only [message_try_from_bytes]
    rw [if_neg (by omega)]

/-- C10, witness: the empty input and the input `[0, 5, 1]` (declared
header length 5, only 1 byte left) both panic. -/
theorem c10_binary_parse_panics_on_short_input_witness :
    message_try_from_bytes [] = none ∧ message_try_from_bytes [0, 5, 1] = none :=
  ⟨c10_binary_parse_panics_on_short_input.1 [] (by decide),
   c10_binary_parse_panics_on_short_input.2 0 5 [1] (by decide)⟩

/-! ## Round-trip lemmas for the framing codec -/

theorem hasCRLF_cons_of_ne (c : Char) (l : RStr) (h : c ≠ '\r') :
    hasCRLF (c :: l) = hasCRLF l := by
  rw [hasCRLF.eq_def]
  split
  · rename_i tail heq
    injection heq with h1 h2
    exact absurd h1 h
  · rename_i x head rest hno heq
    injection heq with h1 h2
    subst h1; subst h2; rfl
  · rename_i heq; cases heq

theorem hasCRLF_tail (c : Char) (l : RStr) (h : hasCRLF (c :: l) = false) :
    hasCRLF l = false := by
  rw [hasCRLF.eq_def] at h
  split at h
  · cases h
  · rename_i x head rest hno heq
    injection heq with h1 h2
    subst h2; exact h
  · rename_i heq; cases heq

theorem hasCRLF_append_of_ne (p v : RStr) (hp : ∀ c ∈ p, c ≠ '\r') :
    hasCRLF (p ++ v) = hasCRLF v := by
  induction p with
  | nil => rfl
  | cons c p ih =>
    rw [List.cons_append, hasCRLF_cons_of_ne c _ (hp c (List.mem_cons_self c p))]
    exact ih fun c hc => hp c (List.mem_cons_of_mem _ hc)

theorem splitCRLF_of_no_crlf (l : RStr) (h : hasCRLF l = false) :
    splitCRLF l = [l] := by
  induction l with
  | nil => rfl
  | cons c l ih =>
    rw [splitCRLF.eq_def]
    split
    · rename_i tail heq
      injection heq with h1 h2
      subst h1; subst h2
      cases h
    · rename_i x head rest hno heq
      injection heq with h1 h2
      subst h1; subst h2
      rw [ih (hasCRLF_tail c l h)]
    · rename_i heq; cases heq

theorem splitCRLF_append_crlf (l rest : RStr) (h : hasCRLF l = false) :
    splitCRLF (l ++ '\r' :: '\n' :: rest) = l :: splitCRLF rest := by
  induction l with
  | nil => rfl
  | cons c l ih =>
    rw [List.cons_append, splitCRLF.eq_def]
    split
    · rename_i tail heq
      injection heq with h1 h2
      subst h1
      rcases l with _ | ⟨d, l⟩
      · simp only [List.nil_append] at h2
        injection h2 with h3 h4
        exact absurd h3 (by decide)
      · simp only [List.cons_append] at h2
        injection h2 with h3 h4
        subst h3
        cases h
    · rename_i x head rest' hno heq
      injection heq with h1 h2
      subst h1; subst h2
      rw [ih (hasCRLF_tail c l h)]
    · rename_i heq; cases heq

theorem splitCRLF_joinCRLF (ls : List RStr) (l : RStr) (hl : hasCRLF l = false)
    (hls : ∀ x ∈ ls, hasCRLF x = false) :
    splitCRLF (joinCRLF (l :: ls)) = l :: ls := by
  induction ls generalizing l with
  | nil => exact splitCRLF_of_no_crlf l hl
  | cons l2 ls ih =>
    show splitCRLF (l ++ '\r' :: '\n' :: joinCRLF (l2 :: ls)) = _
    rw [splitCRLF_append_crlf _ _ hl,
      ih l2 (hls l2 (List.mem_cons_self l2 ls)) fun x hx => hls x (List.mem_cons_of_mem _ hx)]

theorem splitDoubleCRLF_append (a b : RStr) (h : hasCRLF a = false) :
    splitDoubleCRLF (a ++ '\r' :: '\n' :: '\r' :: '\n' :: b) = some (a, b) := by
  induction a with
  | nil => rfl
  | cons c a ih =>
    rw [List.cons_append, splitDoubleCRLF.eq_def]
    split
    · rename_i tail heq
      injection heq with h1 h2
      subst h1
      rcases a with _ | ⟨d, a⟩
      · simp only [List.nil_append] at h2
        injection h2 with h3 h4
        exact absurd h3 (by decide)
      · simp only [List.cons_append] at h2
        injection h2 with h3 h4
        subst h3
        cases h
    · rename_i x head rest hno heq
      injection heq with h1 h2
      subst h1; subst h2
      rw [ih (hasCRLF_tail c a h)]
      rfl
    · rename_i heq; cases heq

/-- The head of a string is not `'\r'`; trivially true of the empty
string. -/
def head_not_cr : RStr → Prop
  | c :: _ => c ≠ '\r'
  | [] => True

theorem splitDoubleCRLF_append_crlf (a rest : RStr) (h : hasCRLF a = false)
    (hr : head_not_cr rest) :
    splitDoubleCRLF (a ++ '\r' :: '\n' :: rest) =
      (splitDoubleCRLF rest).map fun p => (a ++ '\r' :: '\n' :: p.1, p.2) := by
  induction a with
  | nil =>
    rw [List.nil_append, splitDoubleCRLF.eq_def]
    split
    · rename_i tail heq
      injection heq with h1 h2
      injection h2 with h3 h4
      subst h4
      exact absurd rfl hr
    · rename_i x head rest' hno heq
      injection heq with h1 h2
      subst h1; subst h2
      rw [splitDoubleCRLF.eq_def ('\n' :: rest)]
      split
      · rename_i tail heq
        injection heq with h1 h2
        exact absurd h1 (by decide)
      · rename_i x2 head2 rest2 hno2 heq2
        injection heq2 with h1 h2
        subst h1; subst h2
        rcases splitDoubleCRLF rest with _ | ⟨p1, p2⟩ <;> rfl
      · rename_i heq; cases heq
    · rename_i heq; cases heq
  | cons c a ih =>
    rw [List.cons_append, splitDoubleCRLF.eq_def]
    split
    · rename_i tail heq
      injection heq with h1 h2
      subst h1
      rcases a with _ | ⟨d, a⟩
      · simp only [List.nil_append] at h2
        injection h2 with h3 h4
        exact absurd h3 (by decide)
      · simp only [List.cons_append] at h2
        injection h2 with h3 h4
        subst h3
        cases h
    · rename_i x head rest' hno heq
      injection heq with h1 h2
      subst h1; subst h2
      rw [ih (hasCRLF_tail c a h)]
      rcases splitDoubleCRLF rest with _ | ⟨p1, p2⟩ <;> rfl
    · rename_i heq; cases heq

theorem splitDoubleCRLF_joinCRLF (ls : List RStr) (l : RStr) (b : RStr)
    (hl : hasCRLF l = false)
    (hls : ∀ x ∈ ls, hasCRLF x = false ∧ ∃ c t, x = c :: t ∧ c ≠ '\r') :
    splitDoubleCRLF (joinCRLF (l :: ls) ++ '\r' :: '\n' :: '\r' :: '\n' :: b) =
      some (joinCRLF (l :: ls), b) := by
  induction ls generalizing l with
  | nil => exact splitDoubleCRLF_append l b hl
  | cons l2 ls ih =>
    have hjoin : joinCRLF (l :: l2 :: ls) = l ++ '\r' :: '\n' :: joinCRLF (l2 :: ls) := rfl
    rw [hjoin, List.append_assoc, List.cons_append, List.cons_append,
      splitDoubleCRLF_append_crlf _ _ hl ?_, ih l2 (hls l2 (List.mem_cons_self l2 ls)).1
        fun x hx => hls x (List.mem_cons_of_mem _ hx)]
    · rfl
    · obtain ⟨_, c, t, hx, hc⟩ := hls l2 (List.mem_cons_self l2 ls)
      rcases ls with _ | ⟨l3, ls⟩
      · show head_not_cr (l2 ++ _)
        rw [hx]; exact hc
      · show head_not_cr (l2 ++ '\r' :: '\n' :: joinCRLF (l3 :: ls) ++ _)
        rw [hx]; exact hc

theorem split_once_char_append (sep : Char) (p v : RStr) (hp : ∀ c ∈ p, c ≠ sep) :
    split_once_char sep (p ++ sep :: v) = some (p, v) := by
  induction p with
  | nil =>
    rw [List.nil_append, split_once_char, if_pos rfl]
  | cons c p ih =>
    rw [List.cons_append, split_once_char,
      if_neg (hp c (List.mem_cons_self c p)),
      ih fun c hc => hp c (List.mem_cons_of_mem _ hc)]
    rfl

theorem trim_cons_space (v : RStr) : trim (' ' :: v) = trim v := by
  show trim_end (trim_start (' ' :: v)) = _
  rw [trim_start, List.dropWhile_cons_of_pos (by decide)]
  rfl

theorem trim_cons_nonempty (c : Char) (l : RStr) (h : char_is_whitespace c = false) :
    trim (c :: l) ≠ [] := by
  intro hcon
  rw [trim, trim_start, List.dropWhile_cons_of_neg (by simp [h]), trim_end] at hcon
  have : List.dropWhile char_is_whitespace (c :: l).reverse = [] := by
    have := congrArg List.reverse hcon
    simpa using this
  rw [List.dropWhile_eq_nil_iff] at this
  have hc := this c (by simp)
  rw [h] at hc
  cases hc

theorem ascii_mem_append {p v : RStr} (hp : ∀ c ∈ p, c.toNat < 128)
    (hv : ∀ c ∈ v, c.toNat < 128) : ∀ c ∈ p ++ v, c.toNat < 128 := by
  intro c hc
  rcases List.mem_append.mp hc with h | h
  · exact hp c h
  · exact hv c h

theorem utf8Encode_cons (c : Char) (s : RStr) :
    utf8Encode (c :: s) = utf8EncodeChar c.toNat ++ utf8Encode s := rfl

theorem utf8EncodeChar_ascii (n : Nat) (h : n < 128) : utf8EncodeChar n = [n] := by
  rw [utf8EncodeChar, if_pos h]

theorem utf8DecodeStep_ascii (b : Nat) (h : b < 128) (rest : List Nat) :
    utf8DecodeStep b rest = some (b, rest) := by
  unfold utf8DecodeStep; rw [if_pos h]

theorem utf8DecodeFuel_cons_ascii (b : Nat) (h : b < 128) (fuel : Nat)
    (rest : List Nat) :
    utf8DecodeFuel (fuel + 1) (b :: rest) =
      (utf8DecodeFuel fuel rest).map (Char.ofNat b :: ·) := by
  rw [utf8DecodeFuel, utf8DecodeStep_ascii b h]

theorem utf8DecodeFuel_utf8Encode_ascii (s : RStr) (fuel : Nat)
    (h : ∀ c ∈ s, c.toNat < 128) (hf : s.length ≤ fuel) :
    utf8DecodeFuel fuel (utf8Encode s) = some s := by
  induction s generalizing fuel with
  | nil => rcases fuel with _ | fuel <;> rfl
  | cons c s ih =>
    have hc : c.toNat < 128 := h c (List.mem_cons_self c s)
    rcases fuel with _ | fuel
    · simp at hf
    · rw [utf8Encode_cons, utf8EncodeChar_ascii _ hc, List.cons_append, List.nil_append,
        utf8DecodeFuel_cons_ascii _ hc,
        ih fuel (fun x hx => h x (List.mem_cons_of_mem _ hx)) (by simpa using hf)]
      simp [Char.ofNat_toNat]

theorem utf8Encode_length_ascii (s : RStr) (h : ∀ c ∈ s, c.toNat < 128) :
    (utf8Encode s).length = s.length := by
  induction s with
  | nil => rfl
  | cons c s ih =>
    rw [utf8Encode_cons, utf8EncodeChar_ascii _ (h c (List.mem_cons_self c s))]
    simp [ih fun x hx => h x (List.mem_cons_of_mem _ hx)]

theorem utf8Decode_utf8Encode_ascii (s : RStr) (h : ∀ c ∈ s, c.toNat < 128) :
    utf8Decode (utf8Encode s) = some s := by
  rw [utf8Decode, utf8Encode_length_ascii s h]
  exact utf8DecodeFuel_utf8Encode_ascii s s.length h (Nat.le_refl _)

/-- The conditions under which a header value survives the parser's
trimming and lower-casing: parse lower-cases and trims every header value,
so round-tripping requires values that are fixed points of both, and a
value containing CRLF would be torn across header lines. -/
def header_value_ok (v : RStr) : Prop :=
  trim v = v ∧ to_lowercase v = v ∧ hasCRLF v = false

def message_headers_ok (m : AzureCognitiveSpeechServicesMessage) : Prop :=
  header_value_ok m.request_id ∧ header_value_ok m.path ∧
    m.content_type.elim True header_value_ok ∧
    m.stream_id.elim True header_value_ok

theorem parse_header_line_eq (name v : RStr)
    (hname : ∀ c ∈ name, c ≠ ':')
    (hv1 : trim v = v) (hv2 : to_lowercase v = v) :
    parse_header_line (name ++ ':' :: ' ' :: v) =
      .ok (to_lowercase (trim name), v) := by
  rw [parse_header_line, split_once_char_append ':' name (' ' :: v) hname]
  show Except.ok (to_lowercase (trim name), to_lowercase (trim (' ' :: v))) = _
  rw [trim_cons_space, hv1, hv2]

theorem line_no_crlf (name v : RStr) (hname : ∀ c ∈ name, c ≠ '\r')
    (hv : hasCRLF v = false) : hasCRLF (name ++ ':' :: ' ' :: v) = false := by
  rw [hasCRLF_append_of_ne name _ hname, hasCRLF_cons_of_ne _ _ (by decide),
    hasCRLF_cons_of_ne _ _ (by decide), hv]

theorem line_trim_nonempty (c : Char) (t v : RStr) (hc : char_is_whitespace c = false) :
    trim ((c :: t) ++ ':' :: ' ' :: v) ≠ [] := by
  rw [List.cons_append]
  exact trim_cons_nonempty c _ hc

theorem mapM_parse_header_lines (ps : List (RStr × RStr))
    (hnames : ∀ p ∈ ps, ∀ c ∈ p.1, c ≠ ':')
    (hvals : ∀ p ∈ ps, trim p.2 = p.2 ∧ to_lowercase p.2 = p.2) :
    List.mapM parse_header_line (ps.map fun p => p.1 ++ ':' :: ' ' :: p.2) =
      Except.ok (ps.map fun p => (to_lowercase (trim p.1), p.2)) := by
  induction ps with
  | nil => rfl
  | cons p ps ih =>
    rw [List.map_cons, List.mapM_cons parse_header_line,
      parse_header_line_eq p.1 p.2 (hnames p (List.mem_cons_self p ps))
        (hvals p (List.mem_cons_self p ps)).1 (hvals p (List.mem_cons_self p ps)).2,
      ih (fun q hq => hnames q (List.mem_cons_of_mem _ hq))
        (fun q hq => hvals q (List.mem_cons_of_mem _ hq))]
    rfl

/-- Serialized well-formed header lines survive split, filter and
line-parsing, leaving `headers_to_builder` applied to the lower-cased
header map. -/
theorem parse_headers_join (ps : List (RStr × RStr)) (p0 : RStr × RStr)
    (hnames : ∀ p ∈ p0 :: ps, (∀ c ∈ p.1, c ≠ ':') ∧ (∀ c ∈ p.1, c ≠ '\r') ∧
      ∃ c t, p.1 = c :: t ∧ char_is_whitespace c = false)
    (hvals : ∀ p ∈ p0 :: ps,
      trim p.2 = p.2 ∧ to_lowercase p.2 = p.2 ∧ hasCRLF p.2 = false) :
    parse_headers (joinCRLF ((p0 :: ps).map fun p => p.1 ++ ':' :: ' ' :: p.2)) =
      headers_to_builder ((p0 :: ps).map fun p => (to_lowercase (trim p.1), p.2)) := by
  rw [List.map_cons, parse_headers]
  rw [splitCRLF_joinCRLF (ps.map fun p => p.1 ++ ':' :: ' ' :: p.2)
    (p0.1 ++ ':' :: ' ' :: p0.2)
    (line_no_crlf _ _ (hnames p0 (List.mem_cons_self p0 ps)).2.1
      (hvals p0 (List.mem_cons_self p0 ps)).2.2)
    (by
      intro x hx
      obtain ⟨p, hp, rfl⟩ := List.mem_map.mp hx
      exact line_no_crlf _ _ (hnames p (List.mem_cons_of_mem _ hp)).2.1
        (hvals p (List.mem_cons_of_mem _ hp)).2.2)]
  have hfilter : List.filter (fun c => decide (trim c ≠ []))
      ((p0.1 ++ ':' :: ' ' :: p0.2) :: ps.map fun p => p.1 ++ ':' :: ' ' :: p.2) =
      ((p0.1 ++ ':' :: ' ' :: p0.2) :: ps.map fun p => p.1 ++ ':' :: ' ' :: p.2) :=
    List.filter_eq_self.mpr (by
      intro a ha
      rcases List.mem_cons.mp ha with rfl | ha
      · obtain ⟨_, _, c, t, hct, hc⟩ := hnames p0 (List.mem_cons_self p0 ps)
        rw [hct]
        exact decide_eq_true (line_trim_nonempty c t p0.2 hc)
      · obtain ⟨p, hp, rfl⟩ := List.mem_map.mp ha
        obtain ⟨_, _, c, t, hct, hc⟩ := hnames p (List.mem_cons_of_mem _ hp)
        rw [hct]
        exact decide_eq_true (line_trim_nonempty c t p.2 hc))
  rw [hfilter, show (p0.1 ++ ':' :: ' ' :: p0.2) :: (ps.map fun p => p.1 ++ ':' :: ' ' :: p.2) =
      (p0 :: ps).map (fun p => p.1 ++ ':' :: ' ' :: p.2) from rfl,
    mapM_parse_header_lines (p0 :: ps) (fun q hq => (hnames q hq).1)
      (fun q hq => ⟨(hvals q hq).1, (hvals q hq).2.1⟩)]
  rfl

theorem parse_headers_serialize (m : AzureCognitiveSpeechServicesMessage)
    (hok : message_headers_ok m) :
    parse_headers (serialize_headers m) =
      .ok ⟨some m.request_id, some m.path, m.content_type, m.stream_id, none⟩ := by
  obtain ⟨hrid, hpath, hct, hsid⟩ := hok
  rcases m with ⟨rid, path, ct, sid, body⟩
  rcases ct with _ | ct <;> rcases sid with _ | sid
  · exact (parse_headers_join [("Path".data, path)] ("X-RequestId".data, rid)
      (by
        intro p hp
        rcases List.mem_cons.mp hp with rfl | hp
        · exact ⟨(by decide : ∀ c ∈ "X-RequestId".data, c ≠ ':'), (by decide : ∀ c ∈ "X-RequestId".data, c ≠ '\r'), 'X', "-RequestId".data, rfl, by decide⟩
        · rcases List.mem_cons.mp hp with rfl | hp
          · exact ⟨(by decide : ∀ c ∈ "Path".data, c ≠ ':'), (by decide : ∀ c ∈ "Path".data, c ≠ '\r'), 'P', "ath".data, rfl, by decide⟩
          · cases hp)
      (by
        intro p hp
        rcases List.mem_cons.mp hp with rfl | hp
        · exact hrid
        · rcases List.mem_cons.mp hp with rfl | hp
          · exact hpath
          · cases hp)).trans rfl
  · exact (parse_headers_join [("X-StreamId".data, sid), ("Path".data, path)]
      ("X-RequestId".data, rid)
      (by
        intro p hp
        rcases List.mem_cons.mp hp with rfl | hp
        · exact ⟨(by decide : ∀ c ∈ "X-RequestId".data, c ≠ ':'), (by decide : ∀ c ∈ "X-RequestId".data, c ≠ '\r'), 'X', "-RequestId".data, rfl, by decide⟩
        · rcases List.mem_cons.mp hp with rfl | hp
          · exact ⟨(by decide : ∀ c ∈ "X-StreamId".data, c ≠ ':'), (by decide : ∀ c ∈ "X-StreamId".data, c ≠ '\r'), 'X', "-StreamId".data, rfl, by decide⟩
          · rcases List.mem_cons.mp hp with rfl | hp
            · exact ⟨(by decide : ∀ c ∈ "Path".data, c ≠ ':'), (by decide : ∀ c ∈ "Path".data, c ≠ '\r'), 'P', "ath".data, rfl, by decide⟩
            · cases hp)
      (by
        intro p hp
        rcases List.mem_cons.mp hp with rfl | hp
        · exact hrid
        · rcases List.mem_cons.mp hp with rfl | hp
          · exact hsid
          · rcases List.mem_cons.mp hp with rfl | hp
            · exact hpath
            · cases hp)).trans rfl
  · exact (parse_headers_join [("Content-Type".data, ct), ("Path".data, path)]
      ("X-RequestId".data, rid)
      (by
        intro p hp
        rcases List.mem_cons.mp hp with rfl | hp
        · exact ⟨(by decide : ∀ c ∈ "X-RequestId".data, c ≠ ':'), (by decide : ∀ c ∈ "X-RequestId".data, c ≠ '\r'), 'X', "-RequestId".data, rfl, by decide⟩
        · rcases List.mem_cons.mp hp with rfl | hp
          · exact ⟨(by decide : ∀ c ∈ "Content-Type".data, c ≠ ':'), (by decide : ∀ c ∈ "Content-Type".data, c ≠ '\r'), 'C', "ontent-Type".data, rfl, by decide⟩
          · rcases List.mem_cons.mp hp with rfl | hp
            · exact ⟨(by decide : ∀ c ∈ "Path".data, c ≠ ':'), (by decide : ∀ c ∈ "Path".data, c ≠ '\r'), 'P', "ath".data, rfl, by decide⟩
            · cases hp)
      (by
        intro p hp
        rcases List.mem_cons.mp hp with rfl | hp
        · exact hrid
        · rcases List.mem_cons.mp hp with rfl | hp
          · exact hct
          · rcases List.mem_cons.mp hp with rfl | hp
            · exact hpath
            · cases hp)).trans rfl
  · exact (parse_headers_join
      [("Content-Type".data, ct), ("X-StreamId".data, sid), ("Path".data, path)]
      ("X-RequestId".data, rid)
      (by
        intro p hp
        rcases List.mem_cons.mp hp with rfl | hp
        · exact ⟨(by decide : ∀ c ∈ "X-RequestId".data, c ≠ ':'), (by decide : ∀ c ∈ "X-RequestId".data, c ≠ '\r'), 'X', "-RequestId".data, rfl, by decide⟩
        · rcases List.mem_cons.mp hp with rfl | hp
          · exact ⟨(by decide : ∀ c ∈ "Content-Type".data, c ≠ ':'), (by decide : ∀ c ∈ "Content-Type".data, c ≠ '\r'), 'C', "ontent-Type".data, rfl, by decide⟩
          · rcases List.mem_cons.mp hp with rfl | hp
            · exact ⟨(by decide : ∀ c ∈ "X-StreamId".data, c ≠ ':'), (by decide : ∀ c ∈ "X-StreamId".data, c ≠ '\r'), 'X', "-StreamId".data, rfl, by decide⟩
            · rcases List.mem_cons.mp hp with rfl | hp
              · exact ⟨(by decide : ∀ c ∈ "Path".data, c ≠ ':'), (by decide : ∀ c ∈ "Path".data, c ≠ '\r'), 'P', "ath".data, rfl, by decide⟩
              · cases hp)
      (by
        intro p hp
        rcases List.mem_cons.mp hp with rfl | hp
        · exact hrid
        · rcases List.mem_cons.mp hp with rfl | hp
          · exact hct
          · rcases List.mem_cons.mp hp with rfl | hp
            · exact hsid
            · rcases List.mem_cons.mp hp with rfl | hp
              · exact hpath
              · cases hp)).trans rfl

theorem splitDouble_join_lines (ps : List (RStr × RStr)) (p0 : RStr × RStr) (b : RStr)
    (hnames : ∀ p ∈ p0 :: ps, (∀ c ∈ p.1, c ≠ '\r') ∧ ∃ c t, p.1 = c :: t ∧ c ≠ '\r')
    (hvals : ∀ p ∈ p0 :: ps, hasCRLF p.2 = false) :
    splitDoubleCRLF (joinCRLF ((p0 :: ps).map fun p => p.1 ++ ':' :: ' ' :: p.2) ++
        '\r' :: '\n' :: '\r' :: '\n' :: b) =
      some (joinCRLF ((p0 :: ps).map fun p => p.1 ++ ':' :: ' ' :: p.2), b) := by
  rw [List.map_cons]
  exact splitDoubleCRLF_joinCRLF (ps.map fun p => p.1 ++ ':' :: ' ' :: p.2)
    (p0.1 ++ ':' :: ' ' :: p0.2) b
    (line_no_crlf _ _ (hnames p0 (List.mem_cons_self p0 ps)).1
      (hvals p0 (List.mem_cons_self p0 ps)))
    (by
      intro x hx
      obtain ⟨p, hp, rfl⟩ := List.mem_map.mp hx
      obtain ⟨hall, c, t, hct, hc⟩ := hnames p (List.mem_cons_of_mem _ hp)
      refine ⟨line_no_crlf _ _ hall (hvals p (List.mem_cons_of_mem _ hp)),
        c, t ++ ':' :: ' ' :: p.2, ?_, hc⟩
      rw [hct, List.cons_append])

theorem splitDouble_serialize_headers (m : AzureCognitiveSpeechServicesMessage)
    (hok : message_headers_ok m) (b : RStr) :
    splitDoubleCRLF (serialize_headers m ++ '\r' :: '\n' :: '\r' :: '\n' :: b) =
      some (serialize_headers m, b) := by
  obtain ⟨hrid, hpath, hct, hsid⟩ := hok
  rcases m with ⟨rid, path, ct, sid, body⟩
  rcases ct with _ | ct <;> rcases sid with _ | sid
  · exact splitDouble_join_lines [("Path".data, path)] ("X-RequestId".data, rid) b
      (by
        intro p hp
        rcases List.mem_cons.mp hp with rfl | hp
        · exact ⟨(by decide : ∀ c ∈ "X-RequestId".data, c ≠ '\r'),
            'X', "-RequestId".data, rfl, by decide⟩
        · rcases List.mem_cons.mp hp with rfl | hp
          · exact ⟨(by decide : ∀ c ∈ "Path".data, c ≠ '\r'),
              'P', "ath".data, rfl, by decide⟩
          · cases hp)
      (by
        intro p hp
        rcases List.mem_cons.mp hp with rfl | hp
        · exact hrid.2.2
        · rcases List.mem_cons.mp hp with rfl | hp
          · exact hpath.2.2
          · cases hp)
  · exact splitDouble_join_lines [("X-StreamId".data, sid), ("Path".data, path)]
      ("X-RequestId".data, rid) b
      (by
        intro p hp
        rcases List.mem_cons.mp hp with rfl | hp
        · exact ⟨(by decide : ∀ c ∈ "X-RequestId".data, c ≠ '\r'),
            'X', "-RequestId".data, rfl, by decide⟩
        · rcases List.mem_cons.mp hp with rfl | hp
          · exact ⟨(by decide : ∀ c ∈ "X-StreamId".data, c ≠ '\r'),
              'X', "-StreamId".data, rfl, by decide⟩
          · rcases List.mem_cons.mp hp with rfl | hp
            · exact ⟨(by decide : ∀ c ∈ "Path".data, c ≠ '\r'),
                'P', "ath".data, rfl, by decide⟩
            · cases hp)
      (by
        intro p hp
        rcases List.mem_cons.mp hp with rfl | hp
        · exact hrid.2.2
        · rcases List.mem_cons.mp hp with rfl | hp
          · exact (hsid).2.2
          · rcases List.mem_cons.mp hp with rfl | hp
            · exact hpath.2.2
            · cases hp)
  · exact splitDouble_join_lines [("Content-Type".data, ct), ("Path".data, path)]
      ("X-RequestId".data, rid) b
      (by
        intro p hp
        rcases List.mem_cons.mp hp with rfl | hp
        · exact ⟨(by decide : ∀ c ∈ "X-RequestId".data, c ≠ '\r'),
            'X', "-RequestId".data, rfl, by decide⟩
        · rcases List.mem_cons.mp hp with rfl | hp
          · exact ⟨(by decide : ∀ c ∈ "Content-Type".data, c ≠ '\r'),
              'C', "ontent-Type".data, rfl, by decide⟩
          · rcases List.mem_cons.mp hp with rfl | hp
            · exact ⟨(by decide : ∀ c ∈ "Path".data, c ≠ '\r'),
                'P', "ath".data, rfl, by decide⟩
            · cases hp)
      (by
        intro p hp
        rcases List.mem_cons.mp hp with rfl | hp
        · exact hrid.2.2
        · rcases List.mem_cons.mp hp with rfl | hp
          · exact (hct).2.2
          · rcases List.mem_cons.mp hp with rfl | hp
            · exact hpath.2.2
            · cases hp)
  · exact splitDouble_join_lines
      [("Content-Type".data, ct), ("X-StreamId".data, sid), ("Path".data, path)]
      ("X-RequestId".data, rid) b
      (by
        intro p hp
        rcases List.mem_cons.mp hp with rfl | hp
        · exact ⟨(by decide : ∀ c ∈ "X-RequestId".data, c ≠ '\r'),
            'X', "-RequestId".data, rfl, by decide⟩
        · rcases List.mem_cons.mp hp with rfl | hp
          · exact ⟨(by decide : ∀ c ∈ "Content-Type".data, c ≠ '\r'),
              'C', "ontent-Type".data, rfl, by decide⟩
          · rcases List.mem_cons.mp hp with rfl | hp
            · exact ⟨(by decide : ∀ c ∈ "X-StreamId".data, c ≠ '\r'),
                'X', "-StreamId".data, rfl, by decide⟩
            · rcases List.mem_cons.mp hp with rfl | hp
              · exact ⟨(by decide : ∀ c ∈ "Path".data, c ≠ '\r'),
                  'P', "ath".data, rfl, by decide⟩
              · cases hp)
      (by
        intro p hp
        rcases List.mem_cons.mp hp with rfl | hp
        · exact hrid.2.2
        · rcases List.mem_cons.mp hp with rfl | hp
          · exact (hct).2.2
          · rcases List.mem_cons.mp hp with rfl | hp
            · exact (hsid).2.2
            · rcases List.mem_cons.mp hp with rfl | hp
              · exact hpath.2.2
              · cases hp)

theorem message_from_str_serialize_text (m : AzureCognitiveSpeechServicesMessage)
    (hok : message_headers_ok m) (t : RStr) (hb : m.body = .text t) :
    (serialize_text m).map message_from_str = some (.ok m) := by
  obtain ⟨rid, path, ct, sid, body⟩ := m
  change body = _ at hb
  subst hb
  show some (message_from_str (serialize_headers ⟨rid, path, ct, sid, .text t⟩ ++
    '\r' :: '\n' :: '\r' :: '\n' :: t)) = some (.ok ⟨rid, path, ct, sid, .text t⟩)
  rw [message_from_str, splitDouble_serialize_headers ⟨rid, path, ct, sid, .text t⟩ hok t]
  show some ((parse_headers (serialize_headers ⟨rid, path, ct, sid, .text t⟩)) >>=
    fun b => builder_build (builder_with_body b (.text t))) = _
  rw [parse_headers_serialize ⟨rid, path, ct, sid, .text t⟩ hok]
  rfl

theorem message_try_from_serialize_binary (m : AzureCognitiveSpeechServicesMessage)
    (hok : message_headers_ok m)
    (hascii : ∀ c ∈ serialize_headers m, c.toNat < 128)
    (hlen : (utf8Encode (serialize_headers m)).length < 65536)
    (b : List Nat) (hb : m.body = .binary b) :
    (serialize_binary m).map message_try_from_bytes = some (some (.ok m)) := by
  obtain ⟨rid, path, ct, sid, body⟩ := m
  change body = _ at hb
  subst hb
  show some (message_try_from_bytes
    (u16_to_be_bytes (utf8Encode (serialize_headers ⟨rid, path, ct, sid, .binary b⟩)).length ++
      utf8Encode (serialize_headers ⟨rid, path, ct, sid, .binary b⟩) ++ b)) = _
  rw [u16_to_be_bytes, Nat.mod_eq_of_lt hlen]
  rw [show (([(utf8Encode (serialize_headers ⟨rid, path, ct, sid, .binary b⟩)).length / 256,
      (utf8Encode (serialize_headers ⟨rid, path, ct, sid, .binary b⟩)).length % 256] :
        List Nat) ++
      utf8Encode (serialize_headers ⟨rid, path, ct, sid, .binary b⟩) ++ b) =
    ((utf8Encode (serialize_headers ⟨rid, path, ct, sid, .binary b⟩)).length / 256 ::
      (utf8Encode (serialize_headers ⟨rid, path, ct, sid, .binary b⟩)).length % 256 ::
      (utf8Encode (serialize_headers ⟨rid, path, ct, sid, .binary b⟩) ++ b)) from by
        simp]
  rw [message_try_from_bytes]
  rw [show (utf8Encode (serialize_headers ⟨rid, path, ct, sid, .binary b⟩)).length / 256 * 256 +
      (utf8Encode (serialize_headers ⟨rid, path, ct, sid, .binary b⟩)).length % 256 =
      (utf8Encode (serialize_headers ⟨rid, path, ct, sid, .binary b⟩)).length from by omega]
  rw [if_pos (by rw [List.length_append]; exact Nat.le_add_right _ _)]
  rw [List.take_left' rfl, List.drop_left' rfl,
    utf8Decode_utf8Encode_ascii _ hascii]
  show some (some ((parse_headers (serialize_headers ⟨rid, path, ct, sid, .binary b⟩)) >>=
    fun bl => builder_build (builder_with_body bl (.binary b)))) = _
  rw [parse_headers_serialize ⟨rid, path, ct, sid, .binary b⟩ hok]
  rfl

instance {ε α : Type} [DecidableEq ε] [DecidableEq α] : DecidableEq (Except ε α) := by
  intro a b
  cases a <;> cases b
  case error.error e1 e2 | ok.ok e1 e2 =>
    rcases decEq e1 e2 with h | h
    · exact isFalse (by intro hh; cases hh; exact h rfl)
    · exact isTrue (by rw [h])
  all_goals exact isFalse (by intro hh; cases hh)

instance (v : RStr) : Decidable (header_value_ok v) := by
  unfold header_value_ok; infer_instance

instance (o : Option RStr) : Decidable (o.elim True header_value_ok) := by
  cases o <;> simp only [Option.elim] <;> infer_instance

instance (m : AzureCognitiveSpeechServicesMessage) :
    Decidable (message_headers_ok m) := by
  unfold message_headers_ok; infer_instance

/-- C3, amended: framing round-trips for messages whose header field
values are parse-stable — unchanged by trimming and lower-casing and free
of CRLF — and whose serialized header section is ASCII; binary frames
additionally require that section be shorter than 2^16 bytes (the length
prefix is a `u16` cast).  Under those conditions parsing
`serialize_text`'s output (via `FromStr`) and `serialize_binary`'s output
(via `TryFrom<Vec<u8>>`) yields the original message, all fields equal.
The ASCII hypothesis on the text branch restricts the statement to the
domain where the modelled lower-casing coincides with the program's
`str::to_lowercase`: a non-ASCII upper-case header value (e.g. a request
id `Σ`) is altered by the real parser's lower-casing, so the round-trip is
asserted only on the ASCII domain. -/
theorem c3_framing_roundtrip_for_parse_stable_headers
    (m : AzureCognitiveSpeechServicesMessage) (hok : message_headers_ok m) :
    (∀ t, m.body = .text t →
      (∀ c ∈ serialize_headers m, c.toNat < 128) →
      (serialize_text m).map message_from_str = some (.ok m)) ∧
    (∀ b, m.body = .binary b →
      (∀ c ∈ serialize_headers m, c.toNat < 128) →
      (utf8Encode (serialize_headers m)).length < 65536 →
      (serialize_binary m).map message_try_from_bytes = some (some (.ok m))) :=
  ⟨fun t ht _ => message_from_str_serialize_text m hok t ht,
   fun b hb ha hl => message_try_from_serialize_binary m hok ha hl b hb⟩

/-- C3, witness: a text message and a binary message with lower-case
headers round-trip through their wire encodings. -/
theorem c3_framing_roundtrip_for_parse_stable_headers_witness :
    (serialize_text ⟨"a1b2".data, "speech.config".data, some "application/json".data,
        none, .text "hello, world".data⟩).map message_from_str =
      some (.ok ⟨"a1b2".data, "speech.config".data, some "application/json".data,
        none, .text "hello, world".data⟩) ∧
    (serialize_binary ⟨"a1b2".data, "audio".data, none, some "s1".data,
        .binary [0, 1, 255]⟩).map message_try_from_bytes =
      some (some (.ok ⟨"a1b2".data, "audio".data, none, some "s1".data,
        .binary [0, 1, 255]⟩)) :=
  ⟨(c3_framing_roundtrip_for_parse_stable_headers _ (by decide)).1 _ rfl (by decide),
   (c3_framing_roundtrip_for_parse_stable_headers _ (by decide)).2 _ rfl
     (by decide) (by decide)⟩

/-- C3, counterexample to the claim as stated: a message whose request id
contains an upper-case letter does not round-trip — the parser lower-cases
header values, so `"A"` comes back as `"a"`. -/
theorem c3_counterexample :
    (serialize_text ⟨"A".data, "p".data, none, none, .text "b".data⟩).map
        message_from_str =
      some (.ok ⟨"a".data, "p".data, none, none, .text "b".data⟩) ∧
    (⟨"a".data, "p".data, none, none, .text "b".data⟩ :
        AzureCognitiveSpeechServicesMessage) ≠
      ⟨"A".data, "p".data, none, none, .text "b".data⟩ := by
  constructor <;> decide

/-! ## Event stream decoder (src/synthesiser/stream.rs)

JSON parsing is an out-of-scope collaborator ("a black-box decoder
yielding typed field accessors"): the decoder is parameterized by a pair
of parsing oracles, and theorems quantify over them.  `f32` arithmetic on
tick offsets is idealized as exact rational arithmetic. -/

inductive Json where
  | null
  | bool (b : Bool)
  | str (s : RStr)
  | uint (n : Nat)
  | arr (xs : List Json)
  | obj (fields : List (RStr × Json))

/-- `ValueAccess::get`: object field lookup, `None` on other values. -/
def Json.get (j : Json) (k : RStr) : Option Json :=
  match j with
  | .obj fields => (fields.find? fun p => decide (p.1 = k)).map (·.2)
  | _ => none

/-- `ValueAccess::get_str`. -/
def Json.get_str (j : Json) (k : RStr) : Option RStr :=
  match j.get k with
  | some (.str s) => some s
  | _ => none

/-- `ValueAccess::get_array`. -/
def Json.get_array (j : Json) (k : RStr) : Option (List Json) :=
  match j.get k with
  | some (.arr xs) => some xs
  | _ => none

/-- `ValueAccess::get_u64` (JSON numbers are modelled as unsigned
integers; the decoder only reads tick counts through this accessor). -/
def Json.get_u64 (j : Json) (k : RStr) : Option Nat :=
  match j.get k with
  | some (.uint n) => some n
  | _ => none

structure BlendShape where
  key : RStr
  weight : ℚ
deriving DecidableEq, Repr

structure BlendShapeVisemeFrame where
  frame_offset : ℚ
  blendshapes : List BlendShape
deriving DecidableEq, Repr

inductive UtteranceEvent where
  | audioChunk (data : List Nat)
  | wordBoundary (from_millis to_millis : ℚ) (text : RStr)
  | sentenceBoundary (from_millis to_millis : ℚ) (text : RStr)
  | blendShapeVisemesChunk (frames : List BlendShapeVisemeFrame)
deriving DecidableEq, Repr

/-- The typed payload of `Metadata[0].Data.AnimationChunk`. -/
structure AnimationChunk where
  frame_index : Nat
  blend_shapes : List (List ℚ)
deriving DecidableEq, Repr

/-- The two black-box `simd_json` parses the decoder performs:
`into_json_abstract` on message bodies and the typed `AnimationChunk`
parse on the nested JSON string. -/
structure JsonOracles where
  parse_json : RStr → Except SimdJsonError Json
  parse_animation_chunk : RStr → Except SimdJsonError AnimationChunk

/-- `AzureCognitiveSpeechServicesMessage::into_json_abstract`. -/
def into_json_abstract (oc : JsonOracles)
    (body : AzureCognitiveSpeechServicesMessageBody) :
    Except AzureCognitiveSpeechServicesMessageError Json :=
  match body with
  | .binary _ => .error .parseBinary
  | .text t =>
    match oc.parse_json t with
    | .error e => .error (.parseJson e)
    | .ok j => .ok j

/-- Errors an event stream item can carry: converted message-codec errors,
raw `simd_json` errors from the `AnimationChunk` parse, and
`anyhow::anyhow!` string errors (the decoder's own errors are all of the
last kind — generic message strings, not discriminated variants). -/
inductive DecodeError where
  | message (e : AzureCognitiveSpeechServicesMessageError)
  | simdJson (e : SimdJsonError)
  | anyhowMsg (s : RStr)
deriving DecidableEq, Repr

structure StreamState where
  request_id : RStr
  stream_id : Option RStr
deriving DecidableEq, Repr

/-- Inbound websocket frames: `Message::Binary`, `Message::Text`,
`Message::Close`, and the remaining variants (ping/pong/frame) that the
decoder skips. -/
inductive WsMessage where
  | binary (data : List Nat)
  | text (s : RStr)
  | close
  | other
deriving DecidableEq, Repr

/-- Outcome of one `poll_next` step on one inbound frame: skip the frame
and keep polling (`Poll::Pending` after a self-wake), surface an event,
end the stream (`Poll::Ready(None)`), or surface a fatal error. -/
inductive PollStep where
  | pending (st : StreamState)
  | event (ev : UtteranceEvent)
  | ended
  | fatal (e : DecodeError)
deriving DecidableEq, Repr

def AZURE_BLENDSHAPE_KEYS : List RStr :=
  ["eyeBlinkLeft".data, "eyeLookDownLeft".data, "eyeLookInLeft".data,
   "eyeLookOutLeft".data, "eyeLookUpLeft".data, "eyeSquintLeft".data,
   "eyeWideLeft".data, "eyeBlinkRight".data, "eyeLookDownRight".data,
   "eyeLookInRight".data, "eyeLookOutRight".data, "eyeLookUpRight".data,
   "eyeSquintRight".data, "eyeWideRight".data, "jawForward".data,
   "jawLeft".data, "jawRight".data, "jawOpen".data, "mouthClose".data,
   "mouthFunnel".data, "mouthPucker".data, "mouthLeft".data,
   "mouthRight".data, "mouthSmileLeft".data, "mouthSmileRight".data,
   "mouthFrownLeft".data, "mouthFrownRight".data, "mouthDimpleLeft".data,
   "mouthDimpleRight".data, "mouthStretchLeft".data,
   "mouthStretchRight".data, "mouthRollLower".data, "mouthRollUpper".data,
   "mouthShrugLower".data, "mouthShrugUpper".data, "mouthPressLeft".data,
   "mouthPressRight".data, "mouthLowerDownLeft".data,
   "mouthLowerDownRight".data, "mouthUpperUpLeft".data,
   "mouthUpperUpRight".data, "browDownLeft".data, "browDownRight".data,
   "browInnerUp".data, "browOuterUpLeft".data, "browOuterUpRight".data,
   "cheekPuff".data, "cheekSquintLeft".data, "cheekSquintRight".data,
   "noseSneerLeft".data, "noseSneerRight".data, "tongueOut".data,
   "headRoll".data, "leftEyeRoll".data, "rightEyeRoll".data]

/-- `ACSS sends blendshape frames at 60 fps`: `1000. / 60.`, idealized as
an exact rational. -/
def FRAME_TICK : ℚ := 1000 / 60

/-- One blendshape row: each weight is zipped by position with
`AZURE_BLENDSHAPE_KEYS[i]`; indexing past the 55-entry table panics
(`none`). -/
def map_weights (i : Nat) : List ℚ → Option (List BlendShape)
  | [] => some []
  | weight :: ws =>
    match AZURE_BLENDSHAPE_KEYS.get? i with
    | none => none
    | some key => (map_weights (i + 1) ws).map (BlendShape.mk key weight :: ·)

/-- The frame loop of the `Viseme` arm: frame `i` sits at
`offset_ms + i * FRAME_TICK`. -/
def map_frames (offset_ms : ℚ) (i : Nat) :
    List (List ℚ) → Option (List BlendShapeVisemeFrame)
  | [] => some []
  | keys :: rest =>
    match map_weights 0 keys with
    | none => none
    | some blendshapes =>
      (map_frames offset_ms (i + 1) rest).map
        (BlendShapeVisemeFrame.mk (offset_ms + (i : ℚ) * FRAME_TICK) blendshapes :: ·)

/-- The `"response"` arm after the `debug_assert_eq!` on `audio.type`:
record the stream id on first sight, reject a differing one later with the
generic `anyhow` string error. -/
def response_stream_id (st : StreamState) (audio : Json) : Option PollStep :=
  match audio.get_str "streamId".data with
  | none =>
    some (.fatal (.anyhowMsg
      "missing `streamId` field in `response` event audio metadata".data))
  | some stream_id =>
    match st.stream_id with
    | some self_stream_id =>
      if self_stream_id ≠ stream_id then
        some (.fatal (.anyhowMsg "unexpected multiple streams in request".data))
      else some (.pending st)
    | none => some (.pending { st with stream_id := some stream_id })

/-- The `"response"` arm.  `debug_assert_eq!` evaluates its arguments
(including the `?` on the missing-`type` error) only when debug assertions
are compiled in; an `audio.type` other than `"inline"` then aborts
(`none`). -/
def handle_response (oc : JsonOracles) (debug_assertions : Bool)
    (st : StreamState) (msg : AzureCognitiveSpeechServicesMessage) :
    Option PollStep :=
  match into_json_abstract oc msg.body with
  | .error e => some (.fatal (.message e))
  | .ok data =>
    match data.get "audio".data with
    | none => some (.fatal (.anyhowMsg "missing `audio` field in `response` event".data))
    | some audio =>
      if debug_assertions then
        match audio.get_str "type".data with
        | none =>
          some (.fatal (.anyhowMsg
            "missing `type` field in `response` event audio metadata".data))
        | some ty =>
          if ty = "inline".data then response_stream_id st audio
          else none
      else response_stream_id st audio

/-- The `"audio.metadata"` arm: dispatch on `Metadata[0].Type`.  The `[0]`
index panics on an empty `Metadata` array, and an unknown `Type` hits
`unimplemented!` — both are panics (`none`), not returned errors. -/
def handle_metadata (oc : JsonOracles) (_st : StreamState)
    (msg : AzureCognitiveSpeechServicesMessage) : Option PollStep :=
  match into_json_abstract oc msg.body with
  | .error e => some (.fatal (.message e))
  | .ok data =>
    match data.get_array "Metadata".data with
    | none =>
      some (.fatal (.anyhowMsg "missing `Metadata` field in `audio.metadata` event".data))
    | some arr =>
      match arr.get? 0 with
      | none => none
      | some metadata0 =>
        match metadata0.get_str "Type".data with
        | none =>
          some (.fatal (.anyhowMsg "missing `Type` field in `audio.metadata` event".data))
        | some meta_type =>
          match metadata0.get "Data".data with
          | none =>
            some (.fatal (.anyhowMsg "missing `Data` field in `audio.metadata` event".data))
          | some metadata =>
            if meta_type = "WordBoundary".data ∨ meta_type = "SentenceBoundary".data then
              match metadata.get_u64 "Offset".data with
              | none =>
                some (.fatal (.anyhowMsg
                  "missing `Offset` field in `audio.metadata` event".data))
              | some offset =>
                match metadata.get_u64 "Duration".data with
                | none =>
                  some (.fatal (.anyhowMsg
                    "missing `Duration` field in `audio.metadata` event".data))
                | some duration =>
                  match (metadata.get "text".data).bind
                      (fun v => v.get_str "Text".data) with
                  | none =>
                    some (.fatal (.anyhowMsg
                      "missing `Text` field in `audio.metadata` event".data))
                  | some text =>
                    if meta_type = "SentenceBoundary".data then
                      some (.event (.sentenceBoundary ((offset : ℚ) / 10000)
                        ((offset : ℚ) / 10000 + (duration : ℚ) / 10000) text))
                    else
                      some (.event (.wordBoundary ((offset : ℚ) / 10000)
                        ((offset : ℚ) / 10000 + (duration : ℚ) / 10000) text))
            else if meta_type = "Viseme".data then
              match metadata.get_str "AnimationChunk".data with
              | none =>
                some (.fatal (.anyhowMsg
                  "missing `AnimationChunk` field in `audio.metadata` event".data))
              | some chunk =>
                match oc.parse_animation_chunk chunk with
                | .error e => some (.fatal (.simdJson e))
                | .ok animation_chunk =>
                  match map_frames
                      ((animation_chunk.frame_index : ℚ) * FRAME_TICK) 0
                      animation_chunk.blend_shapes with
                  | none => none
                  | some frames => some (.event (.blendShapeVisemesChunk frames))
            else none

/-- Dispatch on `msg.path()` after the `debug_assert_eq!` on the request
id (which is compiled in only with debug assertions; a mismatch then
aborts, `none`).  Unknown paths are logged and skipped. -/
def poll_next_message (oc : JsonOracles) (debug_assertions : Bool)
    (st : StreamState) (msg : AzureCognitiveSpeechServicesMessage) :
    Option PollStep :=
  if debug_assertions ∧ msg.request_id ≠ st.request_id then none
  else if msg.path = "turn.start".data then some (.pending st)
  else if msg.path = "turn.end".data then some .ended
  else if msg.path = "audio".data then
    match msg.body with
    | .binary data => some (.event (.audioChunk data))
    | .text _ =>
      some (.fatal (.anyhowMsg "expected `audio` event to have a binary body".data))
  else if msg.path = "audio.metadata".data then handle_metadata oc st msg
  else if msg.path = "response".data then handle_response oc debug_assertions st msg
  else some (.pending st)

/-- One `poll_next` step on one inbound websocket frame: parse the frame
(`?` surfaces codec errors, slice panics abort), then dispatch on the
path.  A close frame ends the stream; other frame kinds are skipped. -/
def poll_next (oc : JsonOracles) (debug_assertions : Bool) (st : StreamState)
    (frame : WsMessage) : Option PollStep :=
  match frame with
  | .binary data =>
    match message_try_from_bytes data with
    | none => none
    | some (.error e) => some (.fatal (.message e))
    | some (.ok msg) => poll_next_message oc debug_assertions st msg
  | .text s =>
    match message_from_str s with
    | .error e => some (.fatal (.message e))
    | .ok msg => poll_next_message oc debug_assertions st msg
  | .close => some .ended
  | .other => some (.pending st)

/-- How a finite inbound frame sequence ends: a terminal `turn.end` (or
close frame), a fatal error, or running out of supplied frames. -/
inductive StreamOutcome where
  | ended
  | fatal (e : DecodeError)
  | exhausted
deriving DecidableEq, Repr

/-- The event sequence a conforming consumer observes when pulling the
stream over a finite frame list: `pending` steps poll again, events are
collected in arrival order, and the sequence stops at the first terminal
step (`TryStream` consumers stop at the first `Err`).  `none` propagates a
panic. -/
def run_stream (oc : JsonOracles) (debug_assertions : Bool) :
    StreamState → List WsMessage → Option (List UtteranceEvent × StreamOutcome)
  | _, [] => some ([], .exhausted)
  | st, f :: fs =>
    match poll_next oc debug_assertions st f with
    | none => none
    | some (.pending st2) => run_stream oc debug_assertions st2 fs
    | some (.event ev) =>
      (run_stream oc debug_assertions st fs).map fun r => (ev :: r.1, r.2)
    | some .ended => some ([], .ended)
    | some (.fatal e) => some ([], .fatal e)

/-- A concrete oracle instantiation used by the witnesses: maps the
placeholder bodies of the test frames to the typed JSON values the server
would send. -/
def test_oracles : JsonOracles := {
  parse_json := fun s =>
    if s = "mb1".data then .ok (Json.obj [("Metadata".data, Json.arr [Json.obj [
      ("Type".data, Json.str "WordBoundary".data),
      ("Data".data, Json.obj [("Offset".data, Json.uint 0),
        ("Duration".data, Json.uint 5000000),
        ("text".data, Json.obj [("Text".data, Json.str "hi".data)])])]])])
    else if s = "mb2".data then .ok (Json.obj [("Metadata".data, Json.arr [Json.obj [
      ("Type".data, Json.str "WordBoundary".data),
      ("Data".data, Json.obj [("Offset".data, Json.uint 50000),
        ("Duration".data, Json.uint 20000),
        ("text".data, Json.obj [("Text".data, Json.str "hi".data)])])]])])
    else if s = "mb3".data then .ok (Json.obj [("Metadata".data, Json.arr [Json.obj [
      ("Type".data, Json.str "Bookmark".data),
      ("Data".data, Json.obj [])]])])
    else if s = "mb4".data then .ok (Json.obj [("Metadata".data, Json.arr [Json.obj [
      ("Type".data, Json.str "Viseme".data),
      ("Data".data, Json.obj [("AnimationChunk".data, Json.str "ac1".data)])]])])
    else if s = "rb1".data then .ok (Json.obj [("audio".data, Json.obj
      [("type".data, Json.str "inline".data),
       ("streamId".data, Json.str "s1".data)])])
    else if s = "rb2".data then .ok (Json.obj [("audio".data, Json.obj
      [("type".data, Json.str "inline".data),
       ("streamId".data, Json.str "s2".data)])])
    else .error ⟨0⟩,
  parse_animation_chunk := fun s =>
    if s = "ac1".data then .ok ⟨3, [[1/2], [1/4, 3/4]]⟩
    else .error ⟨0⟩ }

/-- C4, amended: a second `response` frame whose `audio.streamId` differs
from the recorded stream id makes the decoder yield a fatal error — but it
is the generic `anyhow` string error `"unexpected multiple streams in
request"`, not a discriminated error kind (the decoder never constructs
`Error::UnexpectedMultipleStreams`) — and the event sequence yields no
further events whatever frames follow. -/
theorem c4_second_stream_fatal_generic_string_error
    (oc : JsonOracles) (dbg : Bool) (st : StreamState) (s0 : RStr)
    (f : RStr) (msg : AzureCognitiveSpeechServicesMessage)
    (rest : List WsMessage) (j audio : Json) (sid : RStr)
    (hst : st.stream_id = some s0)
    (hparse : message_from_str f = .ok msg)
    (hrid : msg.request_id = st.request_id)
    (hpath : msg.path = "response".data)
    (hjson : into_json_abstract oc msg.body = .ok j)
    (haudio : j.get "audio".data = some audio)
    (htype : audio.get_str "type".data = some "inline".data)
    (hsid : audio.get_str "streamId".data = some sid)
    (hne : sid ≠ s0) :
    run_stream oc dbg st (.text f :: rest) =
      some ([], .fatal (.anyhowMsg "unexpected multiple streams in request".data)) := by
  have hp1 : ¬ (("response".data : RStr) = "turn.start".data) := by decide
  have hp2 : ¬ (("response".data : RStr) = "turn.end".data) := by decide
  have hp3 : ¬ (("response".data : RStr) = "audio".data) := by decide
  have hp4 : ¬ (("response".data : RStr) = "audio.metadata".data) := by decide
  have hs0 : s0 ≠ sid := fun hh => hne hh.symm
  rcases dbg with _ | _ <;>
    simp [run_stream, poll_next, hparse, poll_next_message, hrid, hpath,
      hp1, hp2, hp3, hp4, handle_response, hjson, haudio, htype,
      response_stream_id, hsid, hst, hs0]

/-- C4, witness: starting with no recorded stream id, a first `response`
frame records `s1` and a second one carrying `s2` terminates the sequence
with the generic string error, even with a further frame pending. -/
theorem c4_second_stream_fatal_generic_string_error_witness :
    run_stream test_oracles true ⟨"a".data, none⟩
      [.text "X-RequestId: a\r\nPath: response\r\n\r\nrb1".data,
       .text "X-RequestId: a\r\nPath: response\r\n\r\nrb2".data,
       .text "X-RequestId: a\r\nPath: turn.end\r\n\r\n".data] =
      some ([], .fatal (.anyhowMsg "unexpected multiple streams in request".data)) := by
  have hf1 : poll_next test_oracles true ⟨"a".data, none⟩
      (.text "X-RequestId: a\r\nPath: response\r\n\r\nrb1".data) =
      some (.pending ⟨"a".data, some "s1".data⟩) := rfl
  rw [run_stream, hf1]
  exact c4_second_stream_fatal_generic_string_error test_oracles true
    ⟨"a".data, some "s1".data⟩ "s1".data
    "X-RequestId: a\r\nPath: response\r\n\r\nrb2".data
    ⟨"a".data, "response".data, none, none, .text "rb2".data⟩
    [.text "X-RequestId: a\r\nPath: turn.end\r\n\r\n".data]
    (Json.obj [("audio".data, Json.obj
      [("type".data, Json.str "inline".data),
       ("streamId".data, Json.str "s2".data)])])
    (Json.obj [("type".data, Json.str "inline".data),
      ("streamId".data, Json.str "s2".data)])
    "s2".data rfl (by decide) rfl rfl rfl rfl rfl rfl (by decide)

/-- C4, counterexample to the claim as stated: at the same concrete input
the fatal error value the decoder yields is the generic string
`anyhow!("unexpected multiple streams in request")` — the decoder has no
discriminated `UnexpectedMultipleStreams` variant in its error flow
(`Error::UnexpectedMultipleStreams` in src/error.rs is never
constructed). -/
theorem c4_counterexample :
    run_stream test_oracles true ⟨"a".data, some "s1".data⟩
      [.text "X-RequestId: a\r\nPath: response\r\n\r\nrb2".data] =
      some ([], .fatal (.anyhowMsg "unexpected multiple streams in request".data)) ∧
    ∀ e : AzureCognitiveSpeechServicesMessageError,
      DecodeError.anyhowMsg "unexpected multiple streams in request".data ≠
        .message e := by
  constructor
  · decide
  · intro e h
    cases h

theorem try_from_audio_frame (X : List Nat) :
    message_try_from_bytes
      ([0, 27] ++ utf8Encode "X-RequestId: a\r\nPath: audio".data ++ X) =
      some (.ok ⟨"a".data, "audio".data, none, none, .binary X⟩) := by
  have hlen : (utf8Encode "X-RequestId: a\r\nPath: audio".data).length = 27 := by decide
  have hshape : ([0, 27] ++ utf8Encode "X-RequestId: a\r\nPath: audio".data ++ X) =
      0 :: 27 :: (utf8Encode "X-RequestId: a\r\nPath: audio".data ++ X) := by simp
  have hdec : utf8Decode (utf8Encode "X-RequestId: a\r\nPath: audio".data) =
      some "X-RequestId: a\r\nPath: audio".data := by decide
  rw [hshape, message_try_from_bytes]
  rw [if_pos (by rw [List.length_append, hlen]; omega)]
  rw [show (0 * 256 + 27 : Nat) = 27 from rfl]
  rw [List.take_left' hlen, List.drop_left' hlen, hdec]
  rfl

theorem poll_next_audio_binary_frame (oc : JsonOracles) (dbg : Bool)
    (st : StreamState) (X : List Nat) (hst : st.request_id = "a".data) :
    poll_next oc dbg st
      (.binary ([0, 27] ++ utf8Encode "X-RequestId: a\r\nPath: audio".data ++ X)) =
      some (.event (.audioChunk X)) := by
  have hp1 : ¬ (("audio".data : RStr) = "turn.start".data) := by decide
  have hp2 : ¬ (("audio".data : RStr) = "turn.end".data) := by decide
  rw [poll_next, try_from_audio_frame X]
  show poll_next_message oc dbg st ⟨"a".data, "audio".data, none, none, .binary X⟩ = _
  rw [poll_next_message, if_neg (by simp [hst]), if_neg hp1, if_neg hp2, if_pos rfl]

/-- C5: an `audio` frame whose parsed message has a non-binary (text) body
is a fatal error — the `anyhow` rendering of the ExpectedBinary condition,
`"expected `audio` event to have a binary body"` — and for every binary
payload X, the inbound sequence `[turn.start, audio(X),
audio.metadata(WordBoundary "hi" 0–500 ms), turn.end]` produces exactly
`[AudioChunk(X), WordBoundary 0 500 "hi"]`, in order, and then
terminates; `turn.start` and `turn.end` surface no event. -/
theorem c5_turn_sequence_and_audio_body_check :
    (∀ (oc : JsonOracles) (dbg : Bool) (st : StreamState) (f : RStr)
        (msg : AzureCognitiveSpeechServicesMessage) (t : RStr),
      message_from_str f = .ok msg → msg.request_id = st.request_id →
      msg.path = "audio".data → msg.body = .text t →
      poll_next oc dbg st (.text f) =
        some (.fatal (.anyhowMsg
          "expected `audio` event to have a binary body".data))) ∧
    (∀ X : List Nat,
      run_stream test_oracles true ⟨"a".data, none⟩
        [.text "X-RequestId: a\r\nPath: turn.start\r\n\r\n".data,
         .binary ([0, 27] ++ utf8Encode "X-RequestId: a\r\nPath: audio".data ++ X),
         .text "X-RequestId: a\r\nPath: audio.metadata\r\n\r\nmb1".data,
         .text "X-RequestId: a\r\nPath: turn.end\r\n\r\n".data] =
        some ([.audioChunk X, .wordBoundary 0 500 "hi".data], .ended)) := by
  constructor
  · intro oc dbg st f msg t hparse hrid hpath hbody
    have hp1 : ¬ (("audio".data : RStr) = "turn.start".data) := by decide
    have hp2 : ¬ (("audio".data : RStr) = "turn.end".data) := by decide
    rcases dbg with _ | _ <;>
      simp [poll_next, hparse, poll_next_message, hrid, hpath, hp1, hp2, hbody]
  · intro X
    have hf1 : poll_next test_oracles true ⟨"a".data, none⟩
        (.text "X-RequestId: a\r\nPath: turn.start\r\n\r\n".data) =
        some (.pending ⟨"a".data, none⟩) := rfl
    have hf2 := poll_next_audio_binary_frame test_oracles true ⟨"a".data, none⟩ X rfl
    have hf3 : poll_next test_oracles true ⟨"a".data, none⟩
        (.text "X-RequestId: a\r\nPath: audio.metadata\r\n\r\nmb1".data) =
        some (.event (.wordBoundary (((0 : Nat) : ℚ) / 10000)
          (((0 : Nat) : ℚ) / 10000 + ((5000000 : Nat) : ℚ) / 10000) "hi".data)) := rfl
    have hf4 : poll_next test_oracles true ⟨"a".data, none⟩
        (.text "X-RequestId: a\r\nPath: turn.end\r\n\r\n".data) = some .ended := rfl
    have e2 : ((0 : Nat) : ℚ) / 10000 + ((5000000 : Nat) : ℚ) / 10000 = 500 := by
      norm_num
    have e1 : ((0 : Nat) : ℚ) / 10000 = 0 := by norm_num
    simp only [run_stream, hf1, hf2, hf3, hf4, Option.map_some, Option.map_some']
    rw [e2, e1]

/-- C5, witness: a concrete `audio` frame that arrives as a text frame
(hence with a text body) is rejected with the fatal body-kind error. -/
theorem c5_turn_sequence_and_audio_body_check_witness :
    poll_next test_oracles true ⟨"a".data, none⟩
      (.text "X-RequestId: a\r\nPath: audio\r\n\r\noops".data) =
      some (.fatal (.anyhowMsg
        "expected `audio` event to have a binary body".data)) :=
  c5_turn_sequence_and_audio_body_check.1 test_oracles true ⟨"a".data, none⟩
    "X-RequestId: a\r\nPath: audio\r\n\r\noops".data
    ⟨"a".data, "audio".data, none, none, .text "oops".data⟩ "oops".data
    (by decide) rfl rfl rfl

/-- C6, amended: an `audio.metadata` message whose `Metadata[0].Type` is
neither `WordBoundary`, `SentenceBoundary` nor `Viseme` makes the decoder
panic through `unimplemented!("{a}")` — a process abort (modelled `none`),
not an error value returned to the caller. -/
theorem c6_unknown_metadata_type_panics
    (oc : JsonOracles) (dbg : Bool) (st : StreamState) (f : RStr)
    (msg : AzureCognitiveSpeechServicesMessage) (j : Json) (arr : List Json)
    (m0 d : Json) (ty : RStr)
    (hparse : message_from_str f = .ok msg)
    (hrid : msg.request_id = st.request_id)
    (hpath : msg.path = "audio.metadata".data)
    (hjson : into_json_abstract oc msg.body = .ok j)
    (harr : j.get_array "Metadata".data = some arr)
    (hm0 : arr.get? 0 = some m0)
    (hty : m0.get_str "Type".data = some ty)
    (hd : m0.get "Data".data = some d)
    (hw : ty ≠ "WordBoundary".data) (hs : ty ≠ "SentenceBoundary".data)
    (hv : ty ≠ "Viseme".data) :
    poll_next oc dbg st (.text f) = none := by
  have hp1 : ¬ (("audio.metadata".data : RStr) = "turn.start".data) := by decide
  have hp2 : ¬ (("audio.metadata".data : RStr) = "turn.end".data) := by decide
  have hp3 : ¬ (("audio.metadata".data : RStr) = "audio".data) := by decide
  simp only [List.get?_eq_getElem?] at hm0
  rcases dbg with _ | _ <;>
    simp [poll_next, hparse, poll_next_message, hrid, hpath, hp1, hp2, hp3,
      handle_metadata, hjson, harr, hm0, hty, hd, hw, hs, hv]

/-- C6, witness: a metadata frame with `Type = "Bookmark"` aborts the
decoder (with debug assertions off, so the abort is not the request-id
assertion). -/
theorem c6_unknown_metadata_type_panics_witness :
    poll_next test_oracles false ⟨"a".data, none⟩
      (.text "X-RequestId: a\r\nPath: audio.metadata\r\n\r\nmb3".data) = none :=
  c6_unknown_metadata_type_panics test_oracles false ⟨"a".data, none⟩
    "X-RequestId: a\r\nPath: audio.metadata\r\n\r\nmb3".data
    ⟨"a".data, "audio.metadata".data, none, none, .text "mb3".data⟩
    (Json.obj [("Metadata".data, Json.arr [Json.obj [
      ("Type".data, Json.str "Bookmark".data), ("Data".data, Json.obj [])]])])
    [Json.obj [("Type".data, Json.str "Bookmark".data), ("Data".data, Json.obj [])]]
    (Json.obj [("Type".data, Json.str "Bookmark".data), ("Data".data, Json.obj [])])
    (Json.obj []) "Bookmark".data
    (by decide) rfl rfl rfl rfl rfl rfl rfl (by decide) (by decide) (by decide)

/-- C6, counterexample to the claim as stated: at a concrete
`audio.metadata` frame with `Type = "Bookmark"` the decoder's step is a
panic (`none`, the `unimplemented!` abort), not a yielded terminal error
value. -/
theorem c6_counterexample :
    poll_next test_oracles true ⟨"a".data, none⟩
      (.text "X-RequestId: a\r\nPath: audio.metadata\r\n\r\nmb3".data) = none ∧
    ∀ e : DecodeError,
      (none : Option PollStep) ≠ some (.fatal e) := by
  constructor
  · decide
  · intro e h
    cases h

/-- C7, amended: the request-id invariant is only a `debug_assert_eq!`.
With debug assertions compiled in, a frame whose requestId differs from
the session's aborts the decoder (an assertion failure, modelled `none`)
before any processing; with assertions compiled out the check vanishes and
such a frame is processed as if it belonged to the session — a mismatched
`audio` frame still yields its AudioChunk event. -/
theorem c7_request_id_checked_only_by_debug_assert :
    (∀ (oc : JsonOracles) (st : StreamState)
        (msg : AzureCognitiveSpeechServicesMessage),
      msg.request_id ≠ st.request_id →
      poll_next_message oc true st msg = none) ∧
    (∀ (oc : JsonOracles) (st : StreamState)
        (msg : AzureCognitiveSpeechServicesMessage) (d : List Nat),
      msg.request_id ≠ st.request_id → msg.path = "audio".data →
      msg.body = .binary d →
      poll_next_message oc false st msg = some (.event (.audioChunk d))) := by
  constructor
  · intro oc st msg h
    rw [poll_next_message, if_pos ⟨rfl, h⟩]
  · intro oc st msg d h hpath hbody
    have hp1 : ¬ (("audio".data : RStr) = "turn.start".data) := by decide
    have hp2 : ¬ (("audio".data : RStr) = "turn.end".data) := by decide
    simp [poll_next_message, hpath, hp1, hp2, hbody]

/-- C7, witness: an `audio` message with requestId `"b"` against session
id `"a"` aborts under debug assertions and is decoded into its AudioChunk
without them. -/
theorem c7_request_id_checked_only_by_debug_assert_witness :
    poll_next_message test_oracles true ⟨"a".data, none⟩
      ⟨"b".data, "audio".data, none, none, .binary [1, 2, 3]⟩ = none ∧
    poll_next_message test_oracles false ⟨"a".data, none⟩
      ⟨"b".data, "audio".data, none, none, .binary [1, 2, 3]⟩ =
      some (.event (.audioChunk [1, 2, 3])) :=
  ⟨c7_request_id_checked_only_by_debug_assert.1 test_oracles ⟨"a".data, none⟩
      ⟨"b".data, "audio".data, none, none, .binary [1, 2, 3]⟩ (by decide),
   c7_request_id_checked_only_by_debug_assert.2 test_oracles ⟨"a".data, none⟩
      ⟨"b".data, "audio".data, none, none, .binary [1, 2, 3]⟩ [1, 2, 3]
      (by decide) rfl rfl⟩

/-- C7, counterexample to the claim as stated: with debug assertions
compiled out (release builds), a whole binary `audio` frame carrying
requestId `"b"` in an `"a"` session is decoded into an AudioChunk event —
the frame is processed as if it belonged to the session, not rejected. -/
theorem c7_counterexample :
    poll_next test_oracles false ⟨"a".data, none⟩
      (.binary ([0, 27] ++ utf8Encode "X-RequestId: b\r\nPath: audio".data ++
        [1, 2, 3])) = some (.event (.audioChunk [1, 2, 3])) := by decide

/-- The boundary event the `match meta_type` arms build: `SentenceBoundary`
gets the sentence constructor, the remaining boundary type (`WordBoundary`)
the word constructor. -/
def boundary_event (ty : RStr) (from_millis to_millis : ℚ) (text : RStr) :
    UtteranceEvent :=
  if ty = "SentenceBoundary".data then .sentenceBoundary from_millis to_millis text
  else .wordBoundary from_millis to_millis text

/-- C8: every `WordBoundary`/`SentenceBoundary` metadata message is
decoded into a boundary event with `fromMs = Offset / 10000` and
`toMs = fromMs + Duration / 10000` (ticks are 100 ns, so dividing by
10,000 gives milliseconds; the `f32` arithmetic is modelled exactly over
ℚ). -/
theorem c8_boundary_tick_conversion
    (oc : JsonOracles) (dbg : Bool) (st : StreamState) (f : RStr)
    (msg : AzureCognitiveSpeechServicesMessage) (j : Json) (arr : List Json)
    (m0 d : Json) (ty : RStr) (offset duration : Nat) (text : RStr)
    (hparse : message_from_str f = .ok msg)
    (hrid : msg.request_id = st.request_id)
    (hpath : msg.path = "audio.metadata".data)
    (hjson : into_json_abstract oc msg.body = .ok j)
    (harr : j.get_array "Metadata".data = some arr)
    (hm0 : arr.get? 0 = some m0)
    (hty : m0.get_str "Type".data = some ty)
    (hd : m0.get "Data".data = some d)
    (hty2 : ty = "WordBoundary".data ∨ ty = "SentenceBoundary".data)
    (hoff : d.get_u64 "Offset".data = some offset)
    (hdur : d.get_u64 "Duration".data = some duration)
    (htext : (d.get "text".data).bind (fun v => v.get_str "Text".data) = some text) :
    poll_next oc dbg st (.text f) =
      some (.event (boundary_event ty ((offset : ℚ) / 10000)
        ((offset : ℚ) / 10000 + (duration : ℚ) / 10000) text)) := by
  have hp1 : ¬ (("audio.metadata".data : RStr) = "turn.start".data) := by decide
  have hp2 : ¬ (("audio.metadata".data : RStr) = "turn.end".data) := by decide
  have hp3 : ¬ (("audio.metadata".data : RStr) = "audio".data) := by decide
  simp only [List.get?_eq_getElem?] at hm0
  rcases hty2 with rfl | rfl <;> rcases dbg with _ | _ <;>
    simp [poll_next, hparse, poll_next_message, hrid, hpath, hp1, hp2, hp3,
      handle_metadata, hjson, harr, hm0, hty, hd, hoff, hdur, htext,
      boundary_event]

/-- C8, witness: `Offset = 50000` and `Duration = 20000` ticks give
`fromMs = 5` and `toMs = 7`. -/
theorem c8_boundary_tick_conversion_witness :
    poll_next test_oracles true ⟨"a".data, none⟩
      (.text "X-RequestId: a\r\nPath: audio.metadata\r\n\r\nmb2".data) =
      some (.event (.wordBoundary 5 7 "hi".data)) := by
  have hb : boundary_event "WordBoundary".data (((50000 : Nat) : ℚ) / 10000)
      (((50000 : Nat) : ℚ) / 10000 + ((20000 : Nat) : ℚ) / 10000) "hi".data =
      .wordBoundary 5 7 "hi".data := by
    rw [boundary_event, if_neg (by decide)]
    norm_num
  exact (c8_boundary_tick_conversion test_oracles true ⟨"a".data, none⟩
    "X-RequestId: a\r\nPath: audio.metadata\r\n\r\nmb2".data
    ⟨"a".data, "audio.metadata".data, none, none, .text "mb2".data⟩
    (Json.obj [("Metadata".data, Json.arr [Json.obj [
      ("Type".data, Json.str "WordBoundary".data),
      ("Data".data, Json.obj [("Offset".data, Json.uint 50000),
        ("Duration".data, Json.uint 20000),
        ("text".data, Json.obj [("Text".data, Json.str "hi".data)])])]])])
    [Json.obj [("Type".data, Json.str "WordBoundary".data),
      ("Data".data, Json.obj [("Offset".data, Json.uint 50000),
        ("Duration".data, Json.uint 20000),
        ("text".data, Json.obj [("Text".data, Json.str "hi".data)])])]]
    (Json.obj [("Type".data, Json.str "WordBoundary".data),
      ("Data".data, Json.obj [("Offset".data, Json.uint 50000),
        ("Duration".data, Json.uint 20000),
        ("text".data, Json.obj [("Text".data, Json.str "hi".data)])])])
    (Json.obj [("Offset".data, Json.uint 50000),
      ("Duration".data, Json.uint 20000),
      ("text".data, Json.obj [("Text".data, Json.str "hi".data)])])
    "WordBoundary".data 50000 20000 "hi".data
    (by decide) rfl rfl rfl rfl rfl rfl rfl (Or.inl rfl) rfl rfl rfl).trans
    (congrArg (fun ev => some (PollStep.event ev)) hb)

theorem azure_blendshape_keys_length : AZURE_BLENDSHAPE_KEYS.length = 55 := by decide

theorem map_weights_eq_zipWith :
    ∀ (row : List ℚ) (n : Nat), n + row.length ≤ 55 →
      map_weights n row = some (List.zipWith (fun k w => BlendShape.mk k w)
        (AZURE_BLENDSHAPE_KEYS.drop n) row) := by
  intro row
  induction row with
  | nil => intro n _; simp [map_weights]
  | cons w ws ih =>
    intro n hn
    have hlt : n < AZURE_BLENDSHAPE_KEYS.length := by
      rw [azure_blendshape_keys_length]; simp at hn; omega
    rw [map_weights, List.get?_eq_getElem?, List.getElem?_eq_getElem hlt,
      ih (n + 1) (by simp at hn ⊢; omega),
      List.drop_eq_getElem_cons hlt, List.zipWith_cons_cons]
    rfl

theorem map_frames_eq_spec :
    ∀ (rows : List (List ℚ)) (off : ℚ) (i : Nat),
      (∀ row ∈ rows, row.length ≤ 55) →
      map_frames off i rows = some ((List.range rows.length).map fun (j : Nat) =>
        BlendShapeVisemeFrame.mk (off + ((i : ℚ) + (j : ℚ)) * FRAME_TICK)
          (List.zipWith (fun k w => BlendShape.mk k w) AZURE_BLENDSHAPE_KEYS
            (rows.getD j []))) := by
  intro rows
  induction rows with
  | nil => intro off i _; simp [map_frames]
  | cons row rest ih =>
    intro off i hrows
    have hz := map_weights_eq_zipWith row 0
      (by simpa using hrows row (List.mem_cons_self row rest))
    rw [map_frames, hz, ih off (i + 1)
      (fun r hr => hrows r (List.mem_cons_of_mem _ hr))]
    simp only [Option.map_some]
    rw [List.length_cons, List.range_succ_eq_map, List.map_cons, List.map_map]
    simp only [Option.map_some, Option.map_some', Option.some.injEq, List.drop_zero,
      List.getD_cons_zero, Nat.cast_zero, add_zero, List.cons.injEq]
    refine ⟨trivial, ?_⟩
    apply List.map_congr_left
    intro j hj
    simp only [Function.comp_apply, List.getD_cons_succ]
    have harith : off + ((i : ℚ) + 1 + (j : ℚ)) * FRAME_TICK =
        off + ((i : ℚ) + ((j : ℚ) + 1)) * FRAME_TICK := by ring
    push_cast
    rw [harith]

/-- The frames the specification describes for an AnimationChunk: one
frame per blendshape row, frame `i` at `(frameIndex + i) * (1000/60)` ms,
each row's weights zipped positionally onto the fixed 55-entry key
table. -/
def spec_viseme_frames (frame_index : Nat) (rows : List (List ℚ)) :
    List BlendShapeVisemeFrame :=
  (List.range rows.length).map fun (i : Nat) =>
    BlendShapeVisemeFrame.mk (((frame_index : ℚ) + (i : ℚ)) * (1000 / 60))
      (List.zipWith (fun k w => BlendShape.mk k w) AZURE_BLENDSHAPE_KEYS
        (rows.getD i []))

theorem map_frames_spec_viseme (frame_index : Nat) (rows : List (List ℚ))
    (hrows : ∀ row ∈ rows, row.length ≤ 55) :
    map_frames ((frame_index : ℚ) * FRAME_TICK) 0 rows =
      some (spec_viseme_frames frame_index rows) := by
  rw [map_frames_eq_spec rows _ 0 hrows, spec_viseme_frames]
  refine congrArg some (List.map_congr_left ?_)
  intro j hj
  have : (frame_index : ℚ) * FRAME_TICK + ((0 : Nat) + (j : ℚ)) * FRAME_TICK =
      ((frame_index : ℚ) + (j : ℚ)) * (1000 / 60) := by
    rw [FRAME_TICK]
    push_cast
    ring
  rw [this]

/-- C9: a `Viseme` metadata message whose AnimationChunk parses to frame
index `F` and `N` blendshape rows of at most 55 weights each is decoded
into one BlendShapeVisemesChunk of exactly `N` frames, where frame `i`
(0-based) sits at `(F + i) * (1000/60)` milliseconds and each row's
weights are zipped positionally, in order, onto the fixed 55-entry
blendshape key table (`spec_viseme_frames`). -/
theorem c9_viseme_animation_frames
    (oc : JsonOracles) (dbg : Bool) (st : StreamState) (f : RStr)
    (msg : AzureCognitiveSpeechServicesMessage) (j : Json) (arr : List Json)
    (m0 d : Json) (chunk : RStr) (frame_index : Nat) (rows : List (List ℚ))
    (hparse : message_from_str f = .ok msg)
    (hrid : msg.request_id = st.request_id)
    (hpath : msg.path = "audio.metadata".data)
    (hjson : into_json_abstract oc msg.body = .ok j)
    (harr : j.get_array "Metadata".data = some arr)
    (hm0 : arr.get? 0 = some m0)
    (hty : m0.get_str "Type".data = some "Viseme".data)
    (hd : m0.get "Data".data = some d)
    (hchunk : d.get_str "AnimationChunk".data = some chunk)
    (hanim : oc.parse_animation_chunk chunk = .ok ⟨frame_index, rows⟩)
    (hrows : ∀ row ∈ rows, row.length ≤ 55) :
    poll_next oc dbg st (.text f) =
      some (.event (.blendShapeVisemesChunk
        (spec_viseme_frames frame_index rows))) := by
  have hp1 : ¬ (("audio.metadata".data : RStr) = "turn.start".data) := by decide
  have hp2 : ¬ (("audio.metadata".data : RStr) = "turn.end".data) := by decide
  have hp3 : ¬ (("audio.metadata".data : RStr) = "audio".data) := by decide
  have hv1 : ¬ (("Viseme".data : RStr) = "WordBoundary".data) := by decide
  have hv2 : ¬ (("Viseme".data : RStr) = "SentenceBoundary".data) := by decide
  have hfr := map_frames_spec_viseme frame_index rows hrows
  simp only [List.get?_eq_getElem?] at hm0
  rcases dbg with _ | _ <;>
    simp [poll_next, hparse, poll_next_message, hrid, hpath, hp1, hp2, hp3,
      handle_metadata, hjson, harr, hm0, hty, hd, hv1, hv2, hchunk, hanim, hfr]

/-- C9, witness: `FrameIndex = 3` with the two rows `[[1/2], [1/4, 3/4]]`
gives frames at `3 * (1000/60) = 50` ms and `4 * (1000/60) = 200/3` ms,
each row zipped onto the head of the key table. -/
theorem c9_viseme_animation_frames_witness :
    poll_next test_oracles true ⟨"a".data, none⟩
      (.text "X-RequestId: a\r\nPath: audio.metadata\r\n\r\nmb4".data) =
      some (.event (.blendShapeVisemesChunk
        [⟨50, [⟨"eyeBlinkLeft".data, 1/2⟩]⟩,
         ⟨200/3, [⟨"eyeBlinkLeft".data, 1/4⟩,
           ⟨"eyeLookDownLeft".data, 3/4⟩]⟩])) := by
  have hs : spec_viseme_frames 3 [[1/2], [1/4, 3/4]] =
      [⟨50, [⟨"eyeBlinkLeft".data, 1/2⟩]⟩,
       ⟨200/3, [⟨"eyeBlinkLeft".data, 1/4⟩,
         ⟨"eyeLookDownLeft".data, 3/4⟩]⟩] := by
    simp [spec_viseme_frames, AZURE_BLENDSHAPE_KEYS, List.range_succ]
    norm_num
  exact (c9_viseme_animation_frames test_oracles true ⟨"a".data, none⟩
    "X-RequestId: a\r\nPath: audio.metadata\r\n\r\nmb4".data
    ⟨"a".data, "audio.metadata".data, none, none, .text "mb4".data⟩
    (Json.obj [("Metadata".data, Json.arr [Json.obj [
      ("Type".data, Json.str "Viseme".data),
      ("Data".data, Json.obj [("AnimationChunk".data, Json.str "ac1".data)])]])])
    [Json.obj [("Type".data, Json.str "Viseme".data),
      ("Data".data, Json.obj [("AnimationChunk".data, Json.str "ac1".data)])]]
    (Json.obj [("Type".data, Json.str "Viseme".data),
      ("Data".data, Json.obj [("AnimationChunk".data, Json.str "ac1".data)])])
    (Json.obj [("AnimationChunk".data, Json.str "ac1".data)])
    "ac1".data 3 [[1/2], [1/4, 3/4]]
    (by decide) rfl rfl rfl rfl rfl rfl rfl rfl rfl
    (by
      intro row hrow
      rcases List.mem_cons.mp hrow with rfl | hrow
      · decide
      · rcases List.mem_cons.mp hrow with rfl | hrow
        · decide
        · cases hrow)).trans
    (congrArg (fun fs => some (PollStep.event (UtteranceEvent.blendShapeVisemesChunk fs))) hs)
